import Mathlib

/-!
Verification of the duplicate-download detector (`newdetect.py`).

This file gives a shallow embedding of the admission filter, the stability
detector, the fingerprint store, the per-modality similarity finders and the
decision engine of `EnhancedDownloadHandler` / `AdvancedDuplicateDetector`,
and proves or refutes the frozen claims about them.

Modelling conventions:
* Strings are Lean `String`s; character-level Python operations (`lower`,
  `strip`, `os.path.splitext`, `os.path.basename`) are modelled for the
  ASCII range actually exercised by the program.
* The filesystem is a snapshot `FileSystem` mapping each existing regular
  file path to its size.  `os.path.exists` / `os.path.getsize` read it.
* Content-derived data (MD5 digest, perceptual hashes, audio feature
  vectors, extracted document text, video thumbnail hash, ssdeep hash and
  the ssdeep comparison score) are supplied by an `Oracle`: extraction is a
  pure function of the (stabilized) file path, `none` meaning "library
  unavailable or extraction failed" exactly as the Python helpers return
  `None` in those cases.
* `difflib.SequenceMatcher.ratio` is modelled concretely (including the
  autojunk popularity filter); `ssdeep.compare` stays abstract in the
  oracle since its algorithm lives outside this repository.
-/

/-- Python `str.isspace` characters relevant to `str.strip()` for the ASCII
range: space, tab, newline, carriage return, vertical tab, form feed. -/
def pyIsSpace (c : Char) : Bool :=
  c = ' ' || c = '\t' || c = '\n' || c = '\r' || c = Char.ofNat 11 || c = Char.ofNat 12

/-- Python `str.strip()`: drop leading and trailing whitespace. -/
def pyStrip (s : String) : String :=
  String.mk (((s.data.dropWhile pyIsSpace).reverse.dropWhile pyIsSpace).reverse)

/-- Python `str.lower()` (ASCII case folding, as used on filenames). -/
def pyLower (s : String) : String :=
  String.mk (s.data.map Char.toLower)

/-- Windows path separators recognised by `ntpath` (`sep` and `altsep`). -/
def isNtSep (c : Char) : Bool :=
  c = '\\' || c = '/'

/-- Model of `os.path.basename` on Windows: the part of the path after the
last separator.  Drive-relative paths without any separator are outside the
modelled scope (the watcher always passes absolute paths). -/
def ntBasename (p : String) : String :=
  String.mk ((p.data.reverse.takeWhile (fun c => !(isNtSep c))).reverse)

/-- Index of the last character satisfying `f`, if any. -/
def lastIdxWhere (cs : List Char) (f : Char → Bool) : Option Nat :=
  (List.range cs.length).foldl
    (fun acc i => if f (cs.getD i ' ') then some i else acc) none

/-- Model of `os.path.splitext` (CPython `genericpath._splitext` with the
`ntpath` separators): the extension starts at the last dot, unless every
character between the start of the basename and that dot is itself a dot
(so leading dots never begin an extension). -/
def pySplitext (p : String) : String × String :=
  let cs := p.data
  let dotIdx := lastIdxWhere cs (· = '.')
  let sepIdx := lastIdxWhere cs isNtSep
  match dotIdx with
  | none => (p, "")
  | some d =>
    let fnStart := match sepIdx with
      | none => 0
      | some si => si + 1
    let dotAfterSep := match sepIdx with
      | none => true
      | some si => decide (si < d)
    if dotAfterSep && (List.range' fnStart (d - fnStart)).any (fun i => cs.getD i '.' != '.') then
      (String.mk (cs.take d), String.mk (cs.drop d))
    else
      (p, "")

/-- Lowercased extension of a path, `os.path.splitext(p)[1].lower()`. -/
def extLower (p : String) : String :=
  pyLower (pySplitext p).2

/-- Configuration constant `DOWNLOAD_DIR` from `newdetect.py`. -/
def DOWNLOAD_DIR : String := "C:\\Users\\Manoj\\Downloads"

/-- Model of `os.path.join(DOWNLOAD_DIR, name)` as the handler uses it to
rebuild the path of a stored original. -/
def joinDownloadDir (name : String) : String :=
  DOWNLOAD_DIR ++ "\\" ++ name

/-- File type set `IMAGE_EXTENSIONS` from `newdetect.py`. -/
def IMAGE_EXTENSIONS : List String :=
  [".jpg", ".jpeg", ".png", ".gif", ".bmp", ".tiff", ".webp", ".ico", ".svg"]

/-- File type set `AUDIO_EXTENSIONS` from `newdetect.py`. -/
def AUDIO_EXTENSIONS : List String :=
  [".mp3", ".wav", ".flac", ".aac", ".ogg", ".m4a", ".wma"]

/-- File type set `VIDEO_EXTENSIONS` from `newdetect.py`. -/
def VIDEO_EXTENSIONS : List String :=
  [".mp4", ".avi", ".mov", ".wmv", ".flv", ".mkv", ".webm", ".m4v"]

/-- File type set `DOCUMENT_EXTENSIONS` from `newdetect.py`. -/
def DOCUMENT_EXTENSIONS : List String :=
  [".pdf", ".doc", ".docx", ".txt", ".rtf", ".odt"]

/-- File type set `SUPPORTED_FILE_TYPES` from `newdetect.py`: the union of
the four modality sets plus the archive/office extras. -/
def SUPPORTED_FILE_TYPES : List String :=
  IMAGE_EXTENSIONS ++ AUDIO_EXTENSIONS ++ VIDEO_EXTENSIONS ++ DOCUMENT_EXTENSIONS ++
    [".xls", ".xlsx", ".ppt", ".pptx", ".zip", ".rar", ".7z", ".tar", ".gz"]

/-- Constant `MIN_FILE_SIZE` (1 KB) from `newdetect.py`. -/
def MIN_FILE_SIZE : Nat := 1024

/-- Constant `MAX_FILE_SIZE` (500 MB) from `newdetect.py`. -/
def MAX_FILE_SIZE : Nat := 500 * 1024 * 1024

/-- Set `IGNORED_EXTENSIONS` from `newdetect.py`. -/
def IGNORED_EXTENSIONS : List String :=
  [".tmp", ".temp", ".crdownload", ".part", ".download", ".partial"]

/-- Semantics of the `EXCLUDED_PATTERNS` regexes from `newdetect.py`
(`re.search` with `re.IGNORECASE`): each pattern is anchored at both ends
and otherwise literal, so a filename matches one of them exactly when its
lowercasing is one of the three fixed names. -/
def matchesExcludedPattern (filename : String) : Bool :=
  pyLower filename = "desktop.ini" || pyLower filename = "folder.jpg" ||
    pyLower filename = "thumbs.db"

/-- Leading-sequence test on character lists (first argument: the string,
second: the pattern). -/
def leadsWith : List Char → List Char → Bool
  | _, [] => true
  | [], _ :: _ => false
  | c :: cs, p :: ps => c = p && leadsWith cs ps

/-- Semantics of the `IGNORED_NAME_PATTERNS` regexes from `newdetect.py`
(case-sensitive `re.search`): a leading `~$`, a leading dot, or a trailing
`Thumbs.db`. -/
def matchesIgnoredNamePattern (filename : String) : Bool :=
  leadsWith filename.data "~$".data || leadsWith filename.data ".".data ||
    leadsWith filename.data.reverse "Thumbs.db".data.reverse

/-- Filesystem snapshot: the set of existing regular files with their sizes.
Only regular files appear, so `os.path.exists && os.path.isfile` is
membership and `os.path.getsize` is the lookup. -/
structure FileSystem where
  files : List (String × Nat)

/-- Model of `os.path.getsize` (`none` when the path does not exist). -/
def fsSize (fs : FileSystem) (p : String) : Option Nat :=
  (fs.files.find? (fun e => e.1 = p)).map (·.2)

/-- Model of `os.path.exists` (restricted to regular files, which is all
the program ever probes). -/
def fsExists (fs : FileSystem) (p : String) : Bool :=
  (fsSize fs p).isSome

/-- Model of `should_process_file` from `newdetect.py`: existence check,
excluded-name patterns, temporary extensions, ignored-name patterns,
supported-type check, then the size window.  The `except` branch of the
size probe cannot fire in the snapshot model (existence was just checked),
matching the sequential reading of the Python code. -/
def should_process_file (fs : FileSystem) (file_path : String) : Bool :=
  match fsSize fs file_path with
  | none => false
  | some size =>
    let filename := ntBasename file_path
    if matchesExcludedPattern filename then false
    else
      let ext := extLower file_path
      if IGNORED_EXTENSIONS.contains ext then false
      else if matchesIgnoredNamePattern filename then false
      else if !(SUPPORTED_FILE_TYPES.contains ext) then false
      else if size < MIN_FILE_SIZE then false
      else if size > MAX_FILE_SIZE then false
      else true

/-- Loop body of `wait_for_stable_file` from `newdetect.py`.  `obs t` is the
size observed at the `t`-th sample (`none` when the path no longer exists).
`fuel` is `max_wait - wait_count`, `stable` is `stable_count` and `last` is
`last_size` (`none` models the initial `-1`, which no real size equals).
The returned `Nat` is the value of `wait_count` when the loop exits, used
below to state the "after exactly three further samples" property. -/
def stabLoop (obs : Nat → Option Nat) : Nat → Nat → Nat → Option Nat → Bool × Nat
  | fuel, t, stable, last =>
    if 3 ≤ stable then (true, t)
    else
      match fuel with
      | 0 => (false, t)
      | fuel' + 1 =>
        match obs t with
        | none => (false, t)
        | some sz =>
          if last = some sz ∧ 0 < sz then
            stabLoop obs fuel' (t + 1) (stable + 1) last
          else
            stabLoop obs fuel' (t + 1) 0 (some sz)

/-- Model of `wait_for_stable_file` from `newdetect.py` with its default
`max_wait = 30`: iterate the sampling loop on the observation sequence. -/
def wait_for_stable_file (obs : Nat → Option Nat) : Bool :=
  (stabLoop obs 30 0 0 none).1

/-- Sample count consumed by `wait_for_stable_file` (the final value of
`wait_count`), observable alongside the boolean result. -/
def waitSampleCount (obs : Nat → Option Nat) : Nat :=
  (stabLoop obs 30 0 0 none).2

/-- Specification predicate for the stability loop: starting at sample `i`,
four consecutive observations return the same positive size (the sample
that sets `last_size` plus the three samples that grow `stable_count`),
every sample up to there exists, and the run completes within the 30-sample
budget. -/
def stableRunAt (obs : Nat → Option Nat) (i : Nat) : Prop :=
  i + 4 ≤ 30 ∧ (∀ t, t ≤ i + 3 → (obs t).isSome) ∧
    ∃ s, 0 < s ∧ obs i = some s ∧ obs (i + 1) = some s ∧
      obs (i + 2) = some s ∧ obs (i + 3) = some s

/-- Atoms of the ten `duplicate_patterns` regexes in `is_similar_filename`:
optional whitespace `\s*`, required whitespace `\s+`, a digit run `\d+`, or
a literal character.  In every one of those patterns each variable-length
atom is followed by a character it can never consume (whitespace is never
followed by another whitespace-matching atom, digits never by a digit), so
greedy matching without backtracking computes exactly what `re` computes
on them (for the ASCII range). -/
inductive PatAtom where
  | ws0
  | ws1
  | digits1
  | lit (c : Char)

/-- Literal character sequence as pattern atoms. -/
def lits (s : String) : List PatAtom :=
  s.data.map PatAtom.lit

/-- Greedy matcher for a pattern at the head of the input; returns the
remaining input after the match. -/
def matchAtoms : List PatAtom → List Char → Option (List Char)
  | [], cs => some cs
  | .ws0 :: ps, cs => matchAtoms ps (cs.dropWhile pyIsSpace)
  | .ws1 :: ps, c :: cs =>
    if pyIsSpace c then matchAtoms ps (cs.dropWhile pyIsSpace) else none
  | .ws1 :: _, [] => none
  | .digits1 :: ps, c :: cs =>
    if c.isDigit then matchAtoms ps (cs.dropWhile Char.isDigit) else none
  | .digits1 :: _, [] => none
  | .lit c :: ps, c' :: cs => if c' = c then matchAtoms ps cs else none
  | .lit _ :: _, [] => none

/-- Scan of `re.sub(pattern, '', s)`: at each position try the pattern and
drop the matched span, otherwise keep the character and move on.  All ten
patterns match at least one character, so the fuel (`length + 1`) is never
exhausted on the way. -/
def reSubScan (pat : List PatAtom) : Nat → List Char → List Char
  | 0, cs => cs
  | _ + 1, [] => []
  | fuel + 1, c :: cs =>
    match matchAtoms pat (c :: cs) with
    | some rest => reSubScan pat fuel rest
    | none => c :: reSubScan pat fuel cs

/-- Model of `re.sub(pattern, '', s)` for one duplicate-suffix pattern. -/
def reSubEmpty (pat : List PatAtom) (s : String) : String :=
  String.mk (reSubScan pat (s.data.length + 1) s.data)

/-- The `duplicate_patterns` list from `is_similar_filename`, in source
order. -/
def duplicate_patterns : List (List PatAtom) :=
  [ [.ws0, .lit '(', .digits1, .lit ')'],
    [.ws0, .lit '-', .ws0] ++ lits "copy",
    [.ws0, .lit '_'] ++ lits "copy",
    [.ws0, .lit '-', .ws0, .lit 'v', .digits1, .lit ')'],
    [.ws0, .lit '_', .lit 'v', .digits1, .lit ')'],
    [.ws0, .lit '-', .ws0, .digits1],
    [.ws0, .lit '_', .digits1],
    [.ws0, .lit '-', .ws0] ++ lits "duplicate",
    [.ws0, .lit '_'] ++ lits "duplicate",
    [.ws1] ++ lits "copy" ]

/-- Model of `is_similar_filename` from `newdetect.py`: same extension
(case-insensitively) required first; then equal lowercased stripped bases,
or equal non-empty bases after stripping every duplicate-suffix pattern
(each `re.sub` is followed by a `str.strip()` exactly as in the loop). -/
def is_similar_filename (file1 file2 : String) : Bool :=
  let n1 := pySplitext file1
  let n2 := pySplitext file2
  if pyLower n1.2 ≠ pyLower n2.2 then false
  else
    let base1 := pyStrip (pyLower n1.1)
    let base2 := pyStrip (pyLower n2.1)
    if base1 = base2 then true
    else
      let clean1 := duplicate_patterns.foldl (fun c pat => pyStrip (reSubEmpty pat c)) base1
      let clean2 := duplicate_patterns.foldl (fun c pat => pyStrip (reSubEmpty pat c)) base2
      if clean1 = clean2 ∧ 0 < clean1.length then true else false

/-- Perceptual hash (imagehash 64-bit hash) as its bit sequence. -/
abbrev ImgHash := List Bool

/-- Bitwise Hamming distance between two perceptual hashes, the imagehash
subtraction `current_hash - stored_hash` (count of differing bits). -/
def hashHammingDist (h1 h2 : ImgHash) : Nat :=
  (List.zipWith (fun a b => a != b) h1 h2).count true

/-- Occurrence positions of a character in `b`, ascending: one entry of the
`b2j` index of `difflib.SequenceMatcher`. -/
def b2jAll (b : List Char) (c : Char) : List Nat :=
  (List.range b.length).filter (fun j => b.getD j ' ' = c)

/-- Autojunk popularity test of `difflib.SequenceMatcher`: for a second
sequence of length at least 200, characters occupying more than one
percent of it are dropped from the index. -/
def isPopular (b : List Char) (c : Char) : Bool :=
  decide (200 ≤ b.length) && decide (b.length / 100 + 1 < b.count c)

/-- The `b2j` index with the autojunk filter applied (`isjunk` is `None`
in `find_similar_documents`, so there is no caller-supplied junk). -/
def b2j (b : List Char) (c : Char) : List Nat :=
  if isPopular b c then [] else b2jAll b c

/-- Lookup in the sparse `j2len` row of the matching loop (`dict.get` with
default 0). -/
def j2lGet (m : List (Nat × Nat)) (j : Nat) : Nat :=
  (((m.find? (fun e => e.1 = j)).map (·.2)).getD 0)

/-- One row of the `find_longest_match` dynamic program: for line `i` of
`a`, walk the occurrences `js` of `a[i]` in `b` (already restricted to
`[blo, bhi)`), extending diagonal runs and tracking the best block.  A
strictly greater length is required to displace the best, so the earliest
longest block wins, as in CPython. -/
def flmRow (j2len : List (Nat × Nat)) (i : Nat) (js : List Nat)
    (best : Nat × Nat × Nat) : List (Nat × Nat) × (Nat × Nat × Nat) :=
  js.foldl
    (fun acc j =>
      let k := (if j = 0 then 0 else j2lGet j2len (j - 1)) + 1
      let best' := if acc.2.2.2 < k then (i + 1 - k, j + 1 - k, k) else acc.2
      ((j, k) :: acc.1, best'))
    ([], best)

/-- Core loop of `find_longest_match` over `a[alo:ahi]` and `b[blo:bhi]`,
before the extension passes. -/
def flmCore (a b : List Char) (alo ahi blo bhi : Nat) : Nat × Nat × Nat :=
  ((List.range' alo (ahi - alo)).foldl
    (fun acc i =>
      let js := (b2j b (a.getD i ' ')).filter (fun j => decide (blo ≤ j) && decide (j < bhi))
      flmRow acc.1 i js acc.2)
    ([], (alo, blo, 0))).2

/-- Leftward extension pass of `find_longest_match` (the junk set is empty
here, so the non-junk pass does all the extending and the junk pass is a
no-op). -/
def flmExtendLeft (a b : List Char) (alo blo : Nat) :
    Nat → Nat × Nat × Nat → Nat × Nat × Nat
  | 0, best => best
  | fuel + 1, (bi, bj, bs) =>
    if alo < bi ∧ blo < bj ∧ a.getD (bi - 1) ' ' = b.getD (bj - 1) ' ' then
      flmExtendLeft a b alo blo fuel (bi - 1, bj - 1, bs + 1)
    else (bi, bj, bs)

/-- Rightward extension pass of `find_longest_match`. -/
def flmExtendRight (a b : List Char) (ahi bhi : Nat) :
    Nat → Nat × Nat × Nat → Nat × Nat × Nat
  | 0, best => best
  | fuel + 1, (bi, bj, bs) =>
    if bi + bs < ahi ∧ bj + bs < bhi ∧ a.getD (bi + bs) ' ' = b.getD (bj + bs) ' ' then
      flmExtendRight a b ahi bhi fuel (bi, bj, bs + 1)
    else (bi, bj, bs)

/-- Model of `SequenceMatcher.find_longest_match` on the index ranges
`[alo, ahi)` and `[blo, bhi)`. -/
def find_longest_match (a b : List Char) (alo ahi blo bhi : Nat) : Nat × Nat × Nat :=
  flmExtendRight a b ahi bhi (a.length + b.length)
    (flmExtendLeft a b alo blo (a.length + b.length) (flmCore a b alo ahi blo bhi))

/-- Total size of all matching blocks (`get_matching_blocks` recursion of
`difflib`; the queue order does not affect the sum).  The fuel bounds the
recursion depth, which shrinks the combined range at every level. -/
def matchTotal (a b : List Char) : Nat → Nat → Nat → Nat → Nat → Nat
  | 0, _, _, _, _ => 0
  | fuel + 1, alo, ahi, blo, bhi =>
    let ijk := find_longest_match a b alo ahi blo bhi
    if ijk.2.2 = 0 then 0
    else
      ijk.2.2 + matchTotal a b fuel alo ijk.1 blo ijk.2.1 +
        matchTotal a b fuel (ijk.1 + ijk.2.2) ahi (ijk.2.1 + ijk.2.2) bhi

/-- Model of `difflib.SequenceMatcher(None, a, b).ratio()`:
`2 * M / (len(a) + len(b))` with `M` the total matched size. -/
def sequenceMatcherRatio (sa sb : String) : ℚ :=
  let a := sa.data
  let b := sb.data
  2 * (matchTotal a b (a.length + b.length + 1) 0 a.length 0 b.length : ℚ) /
    ((a.length : ℚ) + (b.length : ℚ))

/-- Audio fingerprint row contents used in comparisons: the spectral
centroid curve and the MFCC matrix, as the flat float vectors that
`np.frombuffer` reconstructs.  The `tempo` and `duration` columns are
stored by `store_fingerprints` but never read by any comparison, so they
are elided here. -/
structure AudioFP where
  spectral_centroid : List ℚ
  mfcc_features : List ℚ
  deriving DecidableEq

/-- Content-extraction oracle: the pure functions of the stabilized file
contents that the Python helpers compute.  A `none` models both a missing
optional library and an extraction failure, exactly the cases where the
helpers return `None`.  `ssdeepCompare` is the external `ssdeep.compare`
score in `0..100`. -/
structure Oracle where
  md5File : String → Option String
  imageHash : String → Option ImgHash
  audioFP : String → Option AudioFP
  docText : String → Option String
  videoHash : String → Option ImgHash
  fuzzyHash : String → Option String
  ssdeepCompare : String → String → Nat

/-- Fingerprint store: the five SQLite tables of `advanced_duplicates.db`,
each keyed by `file_path` (primary key), in rowid order.  Only the columns
read by the similarity scans are kept: `perceptual_hash`,
`spectral_centroid`/`mfcc_features`, `text_content`, `thumbnail_hash` and
`fuzzy_hash`.  The write-only columns (`average_hash`, `difference_hash`,
`wavelet_hash`, `content_hash`, `word_count`, `tempo`, `duration`,
`resolution`, `file_size`, `modification_time`) are elided. -/
structure AdvStore where
  image_hashes : List (String × ImgHash)
  audio_fingerprints : List (String × AudioFP)
  document_content : List (String × String)
  video_thumbnails : List (String × ImgHash)
  fuzzy_hashes : List (String × String)
  deriving DecidableEq

/-- SQLite `INSERT OR REPLACE` on a table with `file_path` as primary key:
the conflicting row is deleted and the new row inserted with a fresh
(maximal) rowid, so it scans last afterwards. -/
def upsert {α : Type} (k : String) (v : α) (t : List (String × α)) : List (String × α) :=
  t.filter (fun e => e.1 ≠ k) ++ [(k, v)]

/-- The named thresholds of `SIMILARITY_THRESHOLDS` in `newdetect.py`. -/
structure Thresholds where
  image_hash : Nat
  audio_similarity : ℚ
  text_similarity : ℚ
  video_similarity : ℚ
  fuzzy_similarity : Nat

/-- Configuration constant `SIMILARITY_THRESHOLDS` from `newdetect.py`.
`video_similarity` is declared but no code path reads it: the video scan
reuses `image_hash`. -/
def SIMILARITY_THRESHOLDS : Thresholds :=
  { image_hash := 10
    audio_similarity := 85 / 100
    text_similarity := 85 / 100
    video_similarity := 8 / 10
    fuzzy_similarity := 80 }

/-- Model of `store_fingerprints` from `newdetect.py`: at most one modality
table insert according to the extension (the `elif` chain), then the fuzzy
hash insert for every supported type.  A document row is only written for
a non-empty extract (`if content:`).  The `file_size`/`modification_time`
columns are write-only and elided with the store model. -/
def store_fingerprints (o : Oracle) (store : AdvStore) (file_path : String) : AdvStore :=
  let ext := extLower file_path
  let s1 :=
    if IMAGE_EXTENSIONS.contains ext then
      match o.imageHash file_path with
      | some h => { store with image_hashes := upsert file_path h store.image_hashes }
      | none => store
    else if AUDIO_EXTENSIONS.contains ext then
      match o.audioFP file_path with
      | some f => { store with audio_fingerprints := upsert file_path f store.audio_fingerprints }
      | none => store
    else if DOCUMENT_EXTENSIONS.contains ext then
      match o.docText file_path with
      | some c =>
        if c ≠ "" then { store with document_content := upsert file_path c store.document_content }
        else store
      | none => store
    else if VIDEO_EXTENSIONS.contains ext then
      match o.videoHash file_path with
      | some h => { store with video_thumbnails := upsert file_path h store.video_thumbnails }
      | none => store
    else store
  if SUPPORTED_FILE_TYPES.contains ext then
    match o.fuzzyHash file_path with
    | some fh => { s1 with fuzzy_hashes := upsert file_path fh s1.fuzzy_hashes }
    | none => s1
  else s1

/-- Stable insertion step for descending sort by score: the inserted
element comes after every already-placed element of greater or equal
score. -/
def insertScoreDesc {β : Type} [LinearOrder β] (x : String × β) :
    List (String × β) → List (String × β)
  | [] => [x]
  | y :: ys => if x.2 ≤ y.2 then y :: insertScoreDesc x ys else x :: y :: ys

/-- Model of Python `sorted(l, key=score, reverse=True)`: stable descending
sort by score (equal scores keep their scan order). -/
def sortScoreDesc {β : Type} [LinearOrder β] (l : List (String × β)) : List (String × β) :=
  l.foldl (fun acc x => insertScoreDesc x acc) []

/-- Model of `find_similar_images` from `newdetect.py`: scan the image
table excluding the querying path, skip rows whose path no longer exists,
keep rows within Hamming distance `image_hash`, score `1 - d/64`, sort by
score descending. -/
def find_similar_images (o : Oracle) (fs : FileSystem) (store : AdvStore)
    (file_path : String) : List (String × ℚ) :=
  match o.imageHash file_path with
  | none => []
  | some qh =>
    sortScoreDesc (store.image_hashes.filterMap (fun row =>
      if row.1 = file_path then none
      else if fsExists fs row.1 then
        let d := hashHammingDist qh row.2
        if d ≤ SIMILARITY_THRESHOLDS.image_hash then some (row.1, 1 - (d : ℚ) / 64)
        else none
      else none))

/-- Model of `find_similar_videos` from `newdetect.py`: identical scan over
the video-thumbnail table, with the same `image_hash` threshold as the
image scan. -/
def find_similar_videos (o : Oracle) (fs : FileSystem) (store : AdvStore)
    (file_path : String) : List (String × ℚ) :=
  match o.videoHash file_path with
  | none => []
  | some qh =>
    sortScoreDesc (store.video_thumbnails.filterMap (fun row =>
      if row.1 = file_path then none
      else if fsExists fs row.1 then
        let d := hashHammingDist qh row.2
        if d ≤ SIMILARITY_THRESHOLDS.image_hash then some (row.1, 1 - (d : ℚ) / 64)
        else none
      else none))

/-- Model of `find_similar_documents` from `newdetect.py`: a query whose
extract is missing, empty (`not content`) or whose stripped length is
below 100 returns no candidates; otherwise scan the document table,
excluding the querying path, skipping dead paths and empty stored
extracts, keeping `SequenceMatcher` ratios at or above
`text_similarity`. -/
def find_similar_documents (o : Oracle) (fs : FileSystem) (store : AdvStore)
    (file_path : String) : List (String × ℚ) :=
  match o.docText file_path with
  | none => []
  | some content =>
    if content = "" then []
    else if (pyStrip content).length < 100 then []
    else
      sortScoreDesc (store.document_content.filterMap (fun row =>
        if row.1 = file_path then none
        else if fsExists fs row.1 ∧ row.2 ≠ "" then
          let sim := sequenceMatcherRatio content row.2
          if SIMILARITY_THRESHOLDS.text_similarity ≤ sim then some (row.1, sim) else none
        else none))

/-- Dot product of two equal-length feature vectors (`np.dot`). -/
def dotQ (a b : List ℚ) : ℚ :=
  (List.zipWith (· * ·) a b).sum

/-- Euclidean norm of a feature vector (`np.linalg.norm`). -/
noncomputable def vecNorm (a : List ℚ) : ℝ :=
  Real.sqrt ((dotQ a a : ℚ) : ℝ)

/-- Cosine similarity of two feature vectors,
`np.dot(x, y) / (np.linalg.norm(x) * np.linalg.norm(y))`. -/
noncomputable def cosineSim (a b : List ℚ) : ℝ :=
  ((dotQ a b : ℚ) : ℝ) / (vecNorm a * vecNorm b)

/-- Audio similarity as `find_similar_audio` computes it: the arithmetic
mean of the cosine similarity of the spectral-centroid vectors and the
cosine similarity of the MFCC vectors. -/
noncomputable def audioSimilarity (x y : AudioFP) : ℝ :=
  (cosineSim x.spectral_centroid y.spectral_centroid +
    cosineSim x.mfcc_features y.mfcc_features) / 2

open Classical in
/-- Model of `find_similar_audio` from `newdetect.py`: scan the audio
table excluding the querying path, skip dead paths, compare only when both
the centroid vectors and the MFCC vectors have matching lengths, keep
candidates whose mean cosine similarity reaches `audio_similarity`. -/
noncomputable def find_similar_audio (o : Oracle) (fs : FileSystem) (store : AdvStore)
    (file_path : String) : List (String × ℝ) :=
  match o.audioFP file_path with
  | none => []
  | some q =>
    sortScoreDesc (store.audio_fingerprints.filterMap (fun row =>
      if row.1 = file_path then none
      else if fsExists fs row.1 then
        if q.spectral_centroid.length = row.2.spectral_centroid.length ∧
            q.mfcc_features.length = row.2.mfcc_features.length then
          let sim := audioSimilarity q row.2
          if ((SIMILARITY_THRESHOLDS.audio_similarity : ℚ) : ℝ) ≤ sim then some (row.1, sim)
          else none
        else none
      else none))

/-- Model of `find_fuzzy_similar` from `newdetect.py`: scan the fuzzy
table excluding the querying path, skip dead paths, keep `ssdeep.compare`
scores at or above `fuzzy_similarity`, normalized to `[0,1]`. -/
def find_fuzzy_similar (o : Oracle) (fs : FileSystem) (store : AdvStore)
    (file_path : String) : List (String × ℚ) :=
  match o.fuzzyHash file_path with
  | none => []
  | some fh =>
    sortScoreDesc (store.fuzzy_hashes.filterMap (fun row =>
      if row.1 = file_path then none
      else if fsExists fs row.1 then
        let sim := o.ssdeepCompare fh row.2
        if SIMILARITY_THRESHOLDS.fuzzy_similarity ≤ sim then some (row.1, (sim : ℚ) / 100)
        else none
      else none))

/-- Result dictionary of `find_all_similarities`: one optional entry per
modality, `none` when the key was not inserted (extension does not map to
that modality).  Python dicts iterate in insertion order, which is the
field order here: image, audio, document, video, fuzzy. -/
structure SimResults where
  image_similarity : Option (List (String × ℚ))
  audio_similarity : Option (List (String × ℝ))
  document_similarity : Option (List (String × ℚ))
  video_similarity : Option (List (String × ℚ))
  fuzzy_similarity : Option (List (String × ℚ))

/-- Model of `find_all_similarities` from `newdetect.py`: store the fresh
file's fingerprints first, then run the per-modality scans selected by the
file's extension against the updated store.  Returns the result dictionary
together with the mutated store. -/
noncomputable def find_all_similarities (o : Oracle) (fs : FileSystem) (store : AdvStore)
    (file_path : String) : SimResults × AdvStore :=
  let store1 := store_fingerprints o store file_path
  let ext := extLower file_path
  ({ image_similarity :=
       if IMAGE_EXTENSIONS.contains ext then some (find_similar_images o fs store1 file_path)
       else none
     audio_similarity :=
       if AUDIO_EXTENSIONS.contains ext then some (find_similar_audio o fs store1 file_path)
       else none
     document_similarity :=
       if DOCUMENT_EXTENSIONS.contains ext then some (find_similar_documents o fs store1 file_path)
       else none
     video_similarity :=
       if VIDEO_EXTENSIONS.contains ext then some (find_similar_videos o fs store1 file_path)
       else none
     fuzzy_similarity :=
       if SUPPORTED_FILE_TYPES.contains ext then some (find_fuzzy_similar o fs store1 file_path)
       else none },
   store1)

/-- The five similarity modalities, in the fixed priority order the result
dictionary is iterated in. -/
inductive Modality where
  | image
  | audio
  | document
  | video
  | fuzzy
  deriving DecidableEq

/-- Classification outcome of one processing pass, the observable alert the
handler emits: exact content match (score 1.0), similar filename (score
0.8), first qualifying modality match, or new unique file. -/
inductive Classification where
  | exactDuplicate (original : String) (score : ℚ)
  | nameSimilarDuplicate (original : String) (score : ℚ)
  | modalitySimilarDuplicate (m : Modality) (original : String) (score : ℝ)
  | newUnique

/-- Candidate selection of the advanced-similarity loop in
`check_for_advanced_duplicates`: among the top 3 matches of one modality,
the first whose path still exists and whose score exceeds 0.7. -/
def pickTop3 (fs : FileSystem) (cands : List (String × ℚ)) : Option (String × ℚ) :=
  (cands.take 3).find? (fun c => fsExists fs c.1 && decide ((7 : ℚ) / 10 < c.2))

open Classical in
/-- The same top-3 selection for the real-valued audio scores. -/
noncomputable def pickTop3R (fs : FileSystem) (cands : List (String × ℝ)) :
    Option (String × ℝ) :=
  (cands.take 3).find? (fun c => fsExists fs c.1 && decide ((7 / 10 : ℝ) < c.2))

/-- The modality loop of `check_for_advanced_duplicates`: walk the result
dictionary in insertion order (image, audio, document, video, fuzzy); the
first modality whose top-3 selection produces a candidate fires, and the
loop breaks. -/
noncomputable def decideModality (fs : FileSystem) (r : SimResults) :
    Option (Modality × String × ℝ) :=
  match r.image_similarity.bind (pickTop3 fs) with
  | some c => some (.image, c.1, (c.2 : ℝ))
  | none =>
  match r.audio_similarity.bind (pickTop3R fs) with
  | some c => some (.audio, c.1, c.2)
  | none =>
  match r.document_similarity.bind (pickTop3 fs) with
  | some c => some (.document, c.1, (c.2 : ℝ))
  | none =>
  match r.video_similarity.bind (pickTop3 fs) with
  | some c => some (.video, c.1, (c.2 : ℝ))
  | none =>
  match r.fuzzy_similarity.bind (pickTop3 fs) with
  | some c => some (.fuzzy, c.1, (c.2 : ℝ))
  | none => none

/-- Handler state: the persisted hash dictionary (`file_hashes`, content
hash to file name, insertion-ordered), the modification database
(`mod_db`, file name to its last content hash; the stored timestamp string
is write-only in the modelled paths and elided), the in-flight admission
set `processing_files`, and the fingerprint store.  The
`file_modification_times` debounce map participates only in
modified-event handling, which is outside the modelled claims. -/
structure HandlerState where
  file_hashes : List (String × String)
  mod_db : List (String × String)
  processing_files : List String
  store : AdvStore

/-- Python dict lookup `d[k]` / `k in d` on the insertion-ordered model. -/
def dictLookup {α : Type} (d : List (String × α)) (k : String) : Option α :=
  (d.find? (fun e => e.1 = k)).map (·.2)

/-- Python dict assignment `d[k] = v`: updates the existing key in place
(keeping its position) or appends a new one. -/
def dictInsert {α : Type} (k : String) (v : α) : List (String × α) → List (String × α)
  | [] => [(k, v)]
  | e :: es => if e.1 = k then (k, v) :: es else e :: dictInsert k v es

/-- Model of `check_for_advanced_duplicates` from `newdetect.py`.  The
branches of the Python `duplicates_found` flag, in order: an exact hash hit
whose stored name differs from the incoming name; otherwise the first
stored entry with a different but similar filename; otherwise the first
qualifying modality match of `find_all_similarities` (which has already
inserted the fresh fingerprints into the store); otherwise `NewUnique`,
which records the hash and modification rows and stores the fingerprints
(a second, idempotent time).  The alert side effects are abstracted into
the returned `Classification`. -/
noncomputable def check_for_advanced_duplicates (o : Oracle) (fs : FileSystem)
    (st : HandlerState) (file_path file_name file_hash : String) :
    Classification × HandlerState :=
  let exactOriginal : Option String :=
    match dictLookup st.file_hashes file_hash with
    | some original_name => if original_name ≠ file_name then some original_name else none
    | none => none
  match exactOriginal with
  | some original_name => (.exactDuplicate (joinDownloadDir original_name) 1, st)
  | none =>
    match st.file_hashes.find? (fun e =>
        e.2 ≠ file_name && is_similar_filename file_name e.2) with
    | some e => (.nameSimilarDuplicate (joinDownloadDir e.2) (8 / 10), st)
    | none =>
      let res := find_all_similarities o fs st.store file_path
      match decideModality fs res.1 with
      | some mc => (.modalitySimilarDuplicate mc.1 mc.2.1 mc.2.2, { st with store := res.2 })
      | none =>
        (.newUnique,
          { st with
            file_hashes := dictInsert file_hash file_name st.file_hashes
            mod_db := dictInsert file_name file_hash st.mod_db
            store := store_fingerprints o res.2 file_path })

/-- Model of `handle_file_event` (new-file branch) followed by
`monitor_and_process_file` from `newdetect.py`: admission filter, in-flight
suppression, stability wait, hash computation, then classification.  The
transient insertion into `processing_files` is discarded in the `finally`
block within the same synchronous pass, so the net state keeps the entry
set unchanged; `obs` is the size-observation sequence the stability wait
samples.  Modified-event debouncing (`file_modification_times`) applies
only to `is_new_file=False` events, outside this model. -/
noncomputable def handle_file_event (o : Oracle) (fs : FileSystem)
    (obs : Nat → Option Nat) (st : HandlerState) (file_path : String) :
    HandlerState × Option Classification :=
  if should_process_file fs file_path = false then (st, none)
  else if file_path ∈ st.processing_files then (st, none)
  else if wait_for_stable_file obs = false then (st, none)
  else
    match o.md5File file_path with
    | none => (st, none)
    | some file_hash =>
      let r := check_for_advanced_duplicates o fs st file_path (ntBasename file_path) file_hash
      (r.2, some r.1)

/-- The fixed modality priority order named by the specification. -/
def modalityOrder : List Modality :=
  [.image, .audio, .document, .video, .fuzzy]

/-- Uniform (real-valued) view of one modality's entry in the result
dictionary. -/
noncomputable def resultsFor (r : SimResults) : Modality → Option (List (String × ℝ))
  | .image => r.image_similarity.map (List.map (fun c => (c.1, (c.2 : ℝ))))
  | .audio => r.audio_similarity
  | .document => r.document_similarity.map (List.map (fun c => (c.1, (c.2 : ℝ))))
  | .video => r.video_similarity.map (List.map (fun c => (c.1, (c.2 : ℝ))))
  | .fuzzy => r.fuzzy_similarity.map (List.map (fun c => (c.1, (c.2 : ℝ))))

/-- Specification-side modality selection, written from the claim: the
top-ranked (head) candidate of the first modality, in the fixed order,
that produced any qualifying match. -/
noncomputable def specTopRankedIn (r : SimResults) :
    List Modality → Option (Modality × String × ℝ)
  | [] => none
  | m :: ms =>
    match resultsFor r m with
    | some (c :: _) => some (m, c.1, c.2)
    | _ => specTopRankedIn r ms

/-- Specification-side decision function for the (amended) claim C1: exact
content-hash match stored under a different name wins with score 1.0;
otherwise a similarity match against any stored name other than the file's
own gives score 0.8; otherwise the top-ranked candidate of the first
modality with any qualifying match, in the order image, audio, document,
video, fuzzy; otherwise `NewUnique`. -/
noncomputable def specDecision (o : Oracle) (fs : FileSystem) (st : HandlerState)
    (file_path file_name file_hash : String) : Classification :=
  match dictLookup st.file_hashes file_hash with
  | some original_name =>
    if original_name ≠ file_name then .exactDuplicate (joinDownloadDir original_name) 1
    else specDecisionRest o fs st file_path file_name
  | none => specDecisionRest o fs st file_path file_name
where
  specDecisionRest (o : Oracle) (fs : FileSystem) (st : HandlerState)
      (file_path file_name : String) : Classification :=
    match st.file_hashes.find? (fun e =>
        e.2 ≠ file_name && is_similar_filename file_name e.2) with
    | some e => .nameSimilarDuplicate (joinDownloadDir e.2) (8 / 10)
    | none =>
      match specTopRankedIn (find_all_similarities o fs st.store file_path).1 modalityOrder with
      | some mc => .modalitySimilarDuplicate mc.1 mc.2.1 mc.2.2
      | none => .newUnique

/-- Specification-side single feature vector of an audio fingerprint (the
data model of the specification carries one numeric feature vector per
audio file): the concatenation of the stored vectors. -/
def specAudioFeatureVec (x : AudioFP) : List ℚ :=
  x.spectral_centroid ++ x.mfcc_features

/-- Specification-side audio similarity, written from the claim's words:
the cosine similarity between the two files' feature vectors. -/
noncomputable def specAudioCosine (x y : AudioFP) : ℝ :=
  cosineSim (specAudioFeatureVec x) (specAudioFeatureVec y)

/-- Number of rows a table holds for a given path key. -/
def rowCount {α : Type} (t : List (String × α)) (k : String) : Nat :=
  (t.filter (fun e => e.1 = k)).length

/-- Invariant of the stability loop relating the mutable state to the
observation history: the counter never exceeds its target; all samples so
far existed; before the first sample the state is initial; afterwards
`last` holds the last observed size, the most recent `stable + 1` samples
all observed it, it is positive whenever the counter is, and the counter
lags the sample index. -/
def stabInv (obs : Nat → Option Nat) (t stable : Nat) (last : Option Nat) : Prop :=
  stable ≤ 3 ∧ (∀ u, u < t → (obs u).isSome) ∧
    (t = 0 → stable = 0 ∧ last = none) ∧
    (0 < t → ∃ v, last = some v ∧ (∀ d, d ≤ stable → obs (t - 1 - d) = some v) ∧
      (0 < stable → 0 < v) ∧ stable < t)

/-- Empty fingerprint store. -/
def emptyStore : AdvStore :=
  ⟨[], [], [], [], []⟩

/-- Oracle with no extraction capability at all (every optional library
absent). -/
def noneOracle : Oracle :=
  { md5File := fun _ => none
    imageHash := fun _ => none
    audioFP := fun _ => none
    docText := fun _ => none
    videoHash := fun _ => none
    fuzzyHash := fun _ => none
    ssdeepCompare := fun _ _ => 0 }

/-- Concrete scenario A (plain text file): watched path. -/
def pathTxtA : String := "C:\\Users\\Manoj\\Downloads\\a.txt"

/-- Scenario A filesystem: the one file, 2000 bytes. -/
def fsA : FileSystem := ⟨[(pathTxtA, 2000)]⟩

/-- Scenario A size observations: constant 2000. -/
def obsA : Nat → Option Nat := fun _ => some 2000

/-- Scenario A oracle: hashing succeeds, nothing else extracts. -/
def oracleA : Oracle := { noneOracle with md5File := fun _ => some "h1" }

/-- Scenario A initial handler state: everything empty. -/
def st0A : HandlerState := ⟨[], [], [], emptyStore⟩

/-- Scenario A state after the first pass: the hash and modification rows
for the new file, untouched store. -/
def st1A : HandlerState := ⟨[("h1", "a.txt")], [("a.txt", "h1")], [], emptyStore⟩

/-- Scenario B (image pair): the stored original image path. -/
def pathPngA : String := "C:\\Users\\Manoj\\Downloads\\a.png"

/-- Scenario B: the freshly downloaded similar image path. -/
def pathPngB : String := "C:\\Users\\Manoj\\Downloads\\b.png"

/-- Scenario B: perceptual hash of the stored image (all zero bits). -/
def imgHashA : ImgHash := List.replicate 64 false

/-- Scenario B: perceptual hash of the fresh image, Hamming distance 6
from the stored one. -/
def imgHashB : ImgHash := List.replicate 6 true ++ List.replicate 58 false

/-- Scenario B filesystem: both images exist. -/
def fsB : FileSystem := ⟨[(pathPngA, 5000), (pathPngB, 5000)]⟩

/-- Scenario B oracle: the fresh image hashes to `imgHashB`; no other
modality extracts. -/
def oracleB : Oracle :=
  { noneOracle with
    md5File := fun _ => some "hb"
    imageHash := fun _ => some imgHashB }

/-- Scenario B handler state: the original image is known by hash and its
image-table row is stored. -/
def stB : HandlerState :=
  ⟨[("ha", "a.png")], [("a.png", "ha")], [], { emptyStore with image_hashes := [(pathPngA, imgHashA)] }⟩

/-- Scenario C (documents): the querying document path. -/
def pathDocQ : String := "C:\\Users\\Manoj\\Downloads\\q.txt"

/-- Scenario C: the stored short document path. -/
def pathDocS : String := "C:\\Users\\Manoj\\Downloads\\s.txt"

/-- Scenario C: 100-character extract of the querying document, with 100
pairwise distinct non-whitespace characters. -/
def longTextC : String := String.mk ((List.range 100).map (fun i => Char.ofNat (33 + i)))

/-- Scenario C: 99-character extract of the stored document: the first 99
characters of the querying document's extract. -/
def shortTextC : String := String.mk ((List.range 99).map (fun i => Char.ofNat (33 + i)))

/-- Scenario C filesystem: both documents exist. -/
def fsC : FileSystem := ⟨[(pathDocQ, 2000), (pathDocS, 2000)]⟩

/-- Scenario C oracle: text extraction returns each document's extract. -/
def oracleC : Oracle :=
  { noneOracle with
    docText := fun p => if p = pathDocS then some shortTextC else some longTextC }

/-- Scenario C store: only the short document's text row. -/
def storeC : AdvStore := { emptyStore with document_content := [(pathDocS, shortTextC)] }

/-- Scenario D (audio): fresh audio fingerprint with centroid `[1]` and
MFCC `[1, 1]`. -/
def afpX : AudioFP := ⟨[1], [1, 1]⟩

/-- Scenario D: stored audio fingerprint with centroid `[1]` and MFCC
`[1, -1]`. -/
def afpY : AudioFP := ⟨[1], [1, -1]⟩

/-- Scenario D: querying and stored audio paths. -/
def pathAudQ : String := "C:\\Users\\Manoj\\Downloads\\q.mp3"

/-- Scenario D: stored audio path. -/
def pathAudS : String := "C:\\Users\\Manoj\\Downloads\\s.mp3"

/-- Scenario D filesystem: both audio files exist. -/
def fsD : FileSystem := ⟨[(pathAudQ, 2048), (pathAudS, 2048)]⟩

/-- Scenario D oracle: every audio extraction yields the fresh
fingerprint. -/
def oracleD : Oracle := { noneOracle with audioFP := fun _ => some afpX }

/-- Scenario D store: one stored audio row. -/
def storeD : AdvStore := { emptyStore with audio_fingerprints := [(pathAudS, afpX)] }

theorem mem_insertScoreDesc {β : Type} [LinearOrder β] (x y : String × β)
    (l : List (String × β)) : x ∈ insertScoreDesc y l ↔ x = y ∨ x ∈ l := by
  induction l with
  | nil => simp [insertScoreDesc]
  | cons z zs ih =>
    by_cases h : y.2 ≤ z.2
    · simp only [insertScoreDesc, if_pos h, List.mem_cons, ih]
      try tauto
    · simp only [insertScoreDesc, if_neg h, List.mem_cons]
      try tauto

theorem mem_sortScoreDesc_aux {β : Type} [LinearOrder β] (l acc : List (String × β))
    (x : String × β) :
    x ∈ l.foldl (fun a y => insertScoreDesc y a) acc ↔ x ∈ acc ∨ x ∈ l := by
  induction l generalizing acc with
  | nil => simp
  | cons z zs ih =>
    rw [List.foldl_cons, ih, mem_insertScoreDesc]
    simp
    tauto

theorem mem_sortScoreDesc {β : Type} [LinearOrder β] (l : List (String × β))
    (x : String × β) : x ∈ sortScoreDesc l ↔ x ∈ l := by
  simp [sortScoreDesc, mem_sortScoreDesc_aux]

theorem mem_find_similar_images {o : Oracle} {fs : FileSystem} {store : AdvStore}
    {path : String} {qh : ImgHash} {p : String} {sc : ℚ}
    (hq : o.imageHash path = some qh) :
    (p, sc) ∈ find_similar_images o fs store path ↔
      ∃ h, (p, h) ∈ store.image_hashes ∧ p ≠ path ∧ fsExists fs p = true ∧
        hashHammingDist qh h ≤ SIMILARITY_THRESHOLDS.image_hash ∧
        sc = 1 - (hashHammingDist qh h : ℚ) / 64 := by
  unfold find_similar_images
  rw [hq, mem_sortScoreDesc, List.mem_filterMap]
  constructor
  · rintro ⟨row, hrow, hf⟩
    try simp only at hf
    split at hf
    · exact absurd hf (by simp)
    · split at hf
      · split at hf
        · rename_i hne hex hd
          obtain ⟨h1, h2⟩ := Prod.mk.injEq .. ▸ Option.some.inj hf
          subst h1
          exact ⟨row.2, hrow, hne, hex, hd, h2.symm⟩
        · exact absurd hf (by simp)
      · exact absurd hf (by simp)
  · rintro ⟨h, hmem, hne, hex, hd, hsc⟩
    refine ⟨(p, h), hmem, ?_⟩
    simp only [hne, if_neg, hex, if_pos, hd, hsc]
    simp [hne, hex, hd]

theorem mem_find_similar_videos {o : Oracle} {fs : FileSystem} {store : AdvStore}
    {path : String} {qh : ImgHash} {p : String} {sc : ℚ}
    (hq : o.videoHash path = some qh) :
    (p, sc) ∈ find_similar_videos o fs store path ↔
      ∃ h, (p, h) ∈ store.video_thumbnails ∧ p ≠ path ∧ fsExists fs p = true ∧
        hashHammingDist qh h ≤ SIMILARITY_THRESHOLDS.image_hash ∧
        sc = 1 - (hashHammingDist qh h : ℚ) / 64 := by
  unfold find_similar_videos
  rw [hq, mem_sortScoreDesc, List.mem_filterMap]
  constructor
  · rintro ⟨row, hrow, hf⟩
    try simp only at hf
    split at hf
    · exact absurd hf (by simp)
    · split at hf
      · split at hf
        · rename_i hne hex hd
          obtain ⟨h1, h2⟩ := Prod.mk.injEq .. ▸ Option.some.inj hf
          subst h1
          exact ⟨row.2, hrow, hne, hex, hd, h2.symm⟩
        · exact absurd hf (by simp)
      · exact absurd hf (by simp)
  · rintro ⟨h, hmem, hne, hex, hd, hsc⟩
    refine ⟨(p, h), hmem, ?_⟩
    simp [hne, hex, hd, hsc]

theorem mem_find_similar_documents {o : Oracle} {fs : FileSystem} {store : AdvStore}
    {path content : String} {p : String} {sc : ℚ}
    (hq : o.docText path = some content) (hne : content ≠ "")
    (hlen : ¬ (pyStrip content).length < 100) :
    (p, sc) ∈ find_similar_documents o fs store path ↔
      ∃ txt, (p, txt) ∈ store.document_content ∧ p ≠ path ∧ fsExists fs p = true ∧
        txt ≠ "" ∧ SIMILARITY_THRESHOLDS.text_similarity ≤ sequenceMatcherRatio content txt ∧
        sc = sequenceMatcherRatio content txt := by
  unfold find_similar_documents
  simp only [hq]
  rw [if_neg hne, if_neg hlen, mem_sortScoreDesc, List.mem_filterMap]
  constructor
  · rintro ⟨row, hrow, hf⟩
    try simp only at hf
    split at hf
    · exact absurd hf (by simp)
    · split at hf
      · split at hf
        · rename_i hp hcond hsim
          obtain ⟨h1, h2⟩ := Prod.mk.injEq .. ▸ Option.some.inj hf
          subst h1
          exact ⟨row.2, hrow, hp, hcond.1, hcond.2, hsim, h2.symm⟩
        · exact absurd hf (by simp)
      · exact absurd hf (by simp)
  · rintro ⟨txt, hmem, hp, hex, htxt, hsim, hsc⟩
    refine ⟨(p, txt), hmem, ?_⟩
    simp [hp, hex, htxt, hsim, hsc]

theorem mem_find_fuzzy_similar {o : Oracle} {fs : FileSystem} {store : AdvStore}
    {path fh : String} {p : String} {sc : ℚ}
    (hq : o.fuzzyHash path = some fh) :
    (p, sc) ∈ find_fuzzy_similar o fs store path ↔
      ∃ sh, (p, sh) ∈ store.fuzzy_hashes ∧ p ≠ path ∧ fsExists fs p = true ∧
        SIMILARITY_THRESHOLDS.fuzzy_similarity ≤ o.ssdeepCompare fh sh ∧
        sc = (o.ssdeepCompare fh sh : ℚ) / 100 := by
  unfold find_fuzzy_similar
  rw [hq, mem_sortScoreDesc, List.mem_filterMap]
  constructor
  · rintro ⟨row, hrow, hf⟩
    try simp only at hf
    split at hf
    · exact absurd hf (by simp)
    · split at hf
      · split at hf
        · rename_i hp hex hsim
          obtain ⟨h1, h2⟩ := Prod.mk.injEq .. ▸ Option.some.inj hf
          subst h1
          exact ⟨row.2, hrow, hp, hex, hsim, h2.symm⟩
        · exact absurd hf (by simp)
      · exact absurd hf (by simp)
  · rintro ⟨sh, hmem, hp, hex, hsim, hsc⟩
    refine ⟨(p, sh), hmem, ?_⟩
    simp [hp, hex, hsim, hsc]

theorem mem_find_similar_audio {o : Oracle} {fs : FileSystem} {store : AdvStore}
    {path : String} {q : AudioFP} {p : String} {s : ℝ}
    (hq : o.audioFP path = some q) :
    (p, s) ∈ find_similar_audio o fs store path ↔
      ∃ f, (p, f) ∈ store.audio_fingerprints ∧ p ≠ path ∧ fsExists fs p = true ∧
        q.spectral_centroid.length = f.spectral_centroid.length ∧
        q.mfcc_features.length = f.mfcc_features.length ∧
        ((SIMILARITY_THRESHOLDS.audio_similarity : ℚ) : ℝ) ≤ audioSimilarity q f ∧
        s = audioSimilarity q f := by
  unfold find_similar_audio
  rw [hq, mem_sortScoreDesc, List.mem_filterMap]
  constructor
  · rintro ⟨row, hrow, hf⟩
    try simp only at hf
    split at hf
    · exact absurd hf (by simp)
    · split at hf
      · split at hf
        · split at hf
          · rename_i hp hex hlen hsim
            obtain ⟨h1, h2⟩ := Prod.mk.injEq .. ▸ Option.some.inj hf
            subst h1
            exact ⟨row.2, hrow, hp, hex, hlen.1, hlen.2, hsim, h2.symm⟩
          · exact absurd hf (by simp)
        · exact absurd hf (by simp)
      · exact absurd hf (by simp)
  · rintro ⟨f, hmem, hp, hex, hl1, hl2, hsim, hs⟩
    refine ⟨(p, f), hmem, ?_⟩
    simp [hp, hex, hl1, hl2, hsim, hs]

theorem find_similar_images_good {o : Oracle} {fs : FileSystem} {store : AdvStore}
    {path : String} :
    ∀ c ∈ find_similar_images o fs store path, fsExists fs c.1 = true ∧ (7 : ℚ) / 10 < c.2 := by
  rintro ⟨p, sc⟩ hc
  cases hq : o.imageHash path with
  | none => rw [find_similar_images, hq] at hc; simp at hc
  | some qh =>
    obtain ⟨h, _, _, hex, hd, hsc⟩ := (mem_find_similar_images hq).mp hc
    refine ⟨hex, ?_⟩
    have hd10 : (hashHammingDist qh h : ℚ) ≤ 10 := by
      exact_mod_cast (hd : hashHammingDist qh h ≤ 10)
    rw [hsc]
    linarith

theorem find_similar_videos_good {o : Oracle} {fs : FileSystem} {store : AdvStore}
    {path : String} :
    ∀ c ∈ find_similar_videos o fs store path, fsExists fs c.1 = true ∧ (7 : ℚ) / 10 < c.2 := by
  rintro ⟨p, sc⟩ hc
  cases hq : o.videoHash path with
  | none => rw [find_similar_videos, hq] at hc; simp at hc
  | some qh =>
    obtain ⟨h, _, _, hex, hd, hsc⟩ := (mem_find_similar_videos hq).mp hc
    refine ⟨hex, ?_⟩
    have hd10 : (hashHammingDist qh h : ℚ) ≤ 10 := by
      exact_mod_cast (hd : hashHammingDist qh h ≤ 10)
    rw [hsc]
    linarith

theorem find_similar_documents_good {o : Oracle} {fs : FileSystem} {store : AdvStore}
    {path : String} :
    ∀ c ∈ find_similar_documents o fs store path,
      fsExists fs c.1 = true ∧ (7 : ℚ) / 10 < c.2 := by
  rintro ⟨p, sc⟩ hc
  cases hq : o.docText path with
  | none => rw [find_similar_documents, hq] at hc; simp at hc
  | some content =>
    by_cases hne : content = ""
    · rw [find_similar_documents, hq] at hc
      simp [hne] at hc
    · by_cases hlen : (pyStrip content).length < 100
      · rw [find_similar_documents, hq] at hc
        simp [hne, hlen] at hc
      · obtain ⟨txt, _, _, hex, _, hsim, hsc⟩ :=
          (mem_find_similar_documents hq hne hlen).mp hc
        refine ⟨hex, ?_⟩
        have : (85 : ℚ) / 100 ≤ sequenceMatcherRatio content txt := hsim
        rw [hsc]
        linarith

theorem find_fuzzy_similar_good {o : Oracle} {fs : FileSystem} {store : AdvStore}
    {path : String} :
    ∀ c ∈ find_fuzzy_similar o fs store path, fsExists fs c.1 = true ∧ (7 : ℚ) / 10 < c.2 := by
  rintro ⟨p, sc⟩ hc
  cases hq : o.fuzzyHash path with
  | none => rw [find_fuzzy_similar, hq] at hc; simp at hc
  | some fh =>
    obtain ⟨sh, _, _, hex, hsim, hsc⟩ := (mem_find_fuzzy_similar hq).mp hc
    refine ⟨hex, ?_⟩
    have h80 : (80 : ℚ) ≤ (o.ssdeepCompare fh sh : ℚ) := by
      exact_mod_cast (hsim : 80 ≤ o.ssdeepCompare fh sh)
    rw [hsc]
    linarith

theorem find_similar_audio_good {o : Oracle} {fs : FileSystem} {store : AdvStore}
    {path : String} :
    ∀ c ∈ find_similar_audio o fs store path,
      fsExists fs c.1 = true ∧ (7 / 10 : ℝ) < c.2 := by
  rintro ⟨p, s⟩ hc
  cases hq : o.audioFP path with
  | none => rw [find_similar_audio, hq] at hc; simp at hc
  | some q =>
    obtain ⟨f, _, _, hex, _, _, hsim, hs⟩ := (mem_find_similar_audio hq).mp hc
    refine ⟨hex, ?_⟩
    have h1 : (((85 : ℚ) / 100 : ℚ) : ℝ) ≤ audioSimilarity q f := hsim
    have h2 : (7 / 10 : ℝ) < (((85 : ℚ) / 100 : ℚ) : ℝ) := by
      norm_num
    rw [hs]
    linarith

theorem pickTop3_eq_head {fs : FileSystem} {l : List (String × ℚ)}
    (h : ∀ c ∈ l, fsExists fs c.1 = true ∧ (7 : ℚ) / 10 < c.2) :
    pickTop3 fs l = l.head? := by
  cases l with
  | nil => rfl
  | cons c t =>
    have hc := h c (List.mem_cons_self ..)
    unfold pickTop3
    rw [List.take_succ_cons, List.find?_cons_of_pos]
    · rfl
    · simp [hc.1, hc.2]

theorem pickTop3R_eq_head {fs : FileSystem} {l : List (String × ℝ)}
    (h : ∀ c ∈ l, fsExists fs c.1 = true ∧ (7 / 10 : ℝ) < c.2) :
    pickTop3R fs l = l.head? := by
  cases l with
  | nil => rfl
  | cons c t =>
    have hc := h c (List.mem_cons_self ..)
    unfold pickTop3R
    rw [List.take_succ_cons, List.find?_cons_of_pos]
    · rfl
    · simp [hc.1, hc.2]

theorem decideModality_eq_spec {fs : FileSystem} {r : SimResults}
    (hI : ∀ l, r.image_similarity = some l →
      ∀ c ∈ l, fsExists fs c.1 = true ∧ (7 : ℚ) / 10 < c.2)
    (hA : ∀ l, r.audio_similarity = some l →
      ∀ c ∈ l, fsExists fs c.1 = true ∧ (7 / 10 : ℝ) < c.2)
    (hD : ∀ l, r.document_similarity = some l →
      ∀ c ∈ l, fsExists fs c.1 = true ∧ (7 : ℚ) / 10 < c.2)
    (hV : ∀ l, r.video_similarity = some l →
      ∀ c ∈ l, fsExists fs c.1 = true ∧ (7 : ℚ) / 10 < c.2)
    (hF : ∀ l, r.fuzzy_similarity = some l →
      ∀ c ∈ l, fsExists fs c.1 = true ∧ (7 : ℚ) / 10 < c.2) :
    decideModality fs r = specTopRankedIn r modalityOrder := by
  have eI : r.image_similarity.bind (pickTop3 fs) = r.image_similarity.bind List.head? := by
    cases hI' : r.image_similarity with
    | none => rfl
    | some l => simp [pickTop3_eq_head (hI _ hI')]
  have eA : r.audio_similarity.bind (pickTop3R fs) = r.audio_similarity.bind List.head? := by
    cases hA' : r.audio_similarity with
    | none => rfl
    | some l => simp [pickTop3R_eq_head (hA _ hA')]
  have eD : r.document_similarity.bind (pickTop3 fs) =
      r.document_similarity.bind List.head? := by
    cases hD' : r.document_similarity with
    | none => rfl
    | some l => simp [pickTop3_eq_head (hD _ hD')]
  have eV : r.video_similarity.bind (pickTop3 fs) = r.video_similarity.bind List.head? := by
    cases hV' : r.video_similarity with
    | none => rfl
    | some l => simp [pickTop3_eq_head (hV _ hV')]
  have eF : r.fuzzy_similarity.bind (pickTop3 fs) = r.fuzzy_similarity.bind List.head? := by
    cases hF' : r.fuzzy_similarity with
    | none => rfl
    | some l => simp [pickTop3_eq_head (hF _ hF')]
  unfold decideModality
  rw [eI, eA, eD, eV, eF]
  obtain ⟨oi, oa, od, ov, og⟩ := r
  rcases oi with _ | (_ | ⟨ci, ti⟩) <;>
  rcases oa with _ | (_ | ⟨ca, ta⟩) <;>
  rcases od with _ | (_ | ⟨cd, td⟩) <;>
  rcases ov with _ | (_ | ⟨cv, tv⟩) <;>
  rcases og with _ | (_ | ⟨cf, tf⟩) <;>
  simp [specTopRankedIn, modalityOrder, resultsFor]

theorem find_all_image_eq {o : Oracle} {fs : FileSystem} {store : AdvStore}
    {path : String} {l : List (String × ℚ)}
    (h : (find_all_similarities o fs store path).1.image_similarity = some l) :
    l = find_similar_images o fs (store_fingerprints o store path) path := by
  unfold find_all_similarities at h
  try simp only at h
  split at h
  · exact (Option.some.inj h).symm
  · exact absurd h (by simp)

theorem find_all_audio_eq {o : Oracle} {fs : FileSystem} {store : AdvStore}
    {path : String} {l : List (String × ℝ)}
    (h : (find_all_similarities o fs store path).1.audio_similarity = some l) :
    l = find_similar_audio o fs (store_fingerprints o store path) path := by
  unfold find_all_similarities at h
  try simp only at h
  split at h
  · exact (Option.some.inj h).symm
  · exact absurd h (by simp)

theorem find_all_document_eq {o : Oracle} {fs : FileSystem} {store : AdvStore}
    {path : String} {l : List (String × ℚ)}
    (h : (find_all_similarities o fs store path).1.document_similarity = some l) :
    l = find_similar_documents o fs (store_fingerprints o store path) path := by
  unfold find_all_similarities at h
  try simp only at h
  split at h
  · exact (Option.some.inj h).symm
  · exact absurd h (by simp)

theorem find_all_video_eq {o : Oracle} {fs : FileSystem} {store : AdvStore}
    {path : String} {l : List (String × ℚ)}
    (h : (find_all_similarities o fs store path).1.video_similarity = some l) :
    l = find_similar_videos o fs (store_fingerprints o store path) path := by
  unfold find_all_similarities at h
  try simp only at h
  split at h
  · exact (Option.some.inj h).symm
  · exact absurd h (by simp)

theorem find_all_fuzzy_eq {o : Oracle} {fs : FileSystem} {store : AdvStore}
    {path : String} {l : List (String × ℚ)}
    (h : (find_all_similarities o fs store path).1.fuzzy_similarity = some l) :
    l = find_fuzzy_similar o fs (store_fingerprints o store path) path := by
  unfold find_all_similarities at h
  try simp only at h
  split at h
  · exact (Option.some.inj h).symm
  · exact absurd h (by simp)

theorem decideModality_find_all_eq_spec {o : Oracle} {fs : FileSystem} {store : AdvStore}
    {path : String} :
    decideModality fs (find_all_similarities o fs store path).1 =
      specTopRankedIn (find_all_similarities o fs store path).1 modalityOrder := by
  refine decideModality_eq_spec ?_ ?_ ?_ ?_ ?_
  · intro l hl
    rw [find_all_image_eq hl]
    exact find_similar_images_good
  · intro l hl
    rw [find_all_audio_eq hl]
    exact find_similar_audio_good
  · intro l hl
    rw [find_all_document_eq hl]
    exact find_similar_documents_good
  · intro l hl
    rw [find_all_video_eq hl]
    exact find_similar_videos_good
  · intro l hl
    rw [find_all_fuzzy_eq hl]
    exact find_fuzzy_similar_good

/-- C1 (amended): for every admitted and stabilized new file the decision
engine produces exactly one classification, by fixed priority: an exact
content-hash match stored under a *different* filename yields
`ExactDuplicate` with score 1.0; otherwise a filename-similarity match
against any stored name other than the file's own yields
`NameSimilarDuplicate` with score 0.8; otherwise the top-ranked qualifying
candidate of the first modality with any qualifying match, in the fixed
order image, audio, document, video, fuzzy, yields
`ModalitySimilarDuplicate` of that modality; otherwise `NewUnique`.  The
classification computed by `check_for_advanced_duplicates` equals the
specification-side decision function on every input. -/
theorem claim_C1_amended (o : Oracle) (fs : FileSystem) (st : HandlerState)
    (file_path file_name file_hash : String) :
    (check_for_advanced_duplicates o fs st file_path file_name file_hash).1 =
      specDecision o fs st file_path file_name file_hash := by
  cases hL : dictLookup st.file_hashes file_hash with
  | some orig =>
    by_cases hno : orig = file_name
    · cases hN : st.file_hashes.find? (fun e =>
          !decide (e.2 = file_name) && is_similar_filename file_name e.2) with
      | some e =>
        simp [check_for_advanced_duplicates, specDecision, specDecision.specDecisionRest,
          hL, hno, hN]
      | none =>
        cases hM : decideModality fs (find_all_similarities o fs st.store file_path).1 with
        | some mc =>
          simp [check_for_advanced_duplicates, specDecision, specDecision.specDecisionRest,
            hL, hno, hN, hM, ← decideModality_find_all_eq_spec]
        | none =>
          simp [check_for_advanced_duplicates, specDecision, specDecision.specDecisionRest,
            hL, hno, hN, hM, ← decideModality_find_all_eq_spec]
    · simp [check_for_advanced_duplicates, specDecision, hL, hno]
  | none =>
    cases hN : st.file_hashes.find? (fun e =>
        !decide (e.2 = file_name) && is_similar_filename file_name e.2) with
    | some e =>
      simp [check_for_advanced_duplicates, specDecision, specDecision.specDecisionRest, hL, hN]
    | none =>
      cases hM : decideModality fs (find_all_similarities o fs st.store file_path).1 with
      | some mc =>
        simp [check_for_advanced_duplicates, specDecision, specDecision.specDecisionRest,
          hL, hN, hM, ← decideModality_find_all_eq_spec]
      | none =>
        simp [check_for_advanced_duplicates, specDecision, specDecision.specDecisionRest,
          hL, hN, hM, ← decideModality_find_all_eq_spec]

/-- C1 counterexample: the claim as stated says an exact content-hash match
against the stored hashes yields `ExactDuplicate` with score 1.0.  In the
state where the hash table maps the file's own hash to its own name (the
file was already processed once, or was deleted and re-downloaded under
the same name), the hash matches a stored entry, yet the engine classifies
the file `NewUnique`: the exact branch additionally requires the stored
name to differ from the incoming name. -/
theorem claim_C1_counterexample :
    dictLookup st1A.file_hashes "h1" = some "a.txt" ∧
    (check_for_advanced_duplicates oracleA fsA st1A pathTxtA "a.txt" "h1").1 =
      Classification.newUnique := by
  constructor
  · rfl
  · rfl

theorem upsert_filter_ne {α : Type} {k path : String} (hk : k ≠ path) (v : α)
    (t : List (String × α)) :
    (upsert path v t).filter (fun e => e.1 = k) = t.filter (fun e => e.1 = k) := by
  unfold upsert
  rw [List.filter_append, List.filter_filter]
  have h1 : List.filter (fun e => decide (e.1 = k)) [(path, v)] = [] := by
    simp [Ne.symm hk]
  rw [h1, List.append_nil]
  apply List.filter_congr
  intro e _
  by_cases he : e.1 = k
  · have hep : ¬ e.1 = path := fun hp => hk (he.symm.trans hp)
    simp [he, hep]
    exact hk
  · simp [he]

theorem upsert_idem {α : Type} (k : String) (v : α) (t : List (String × α)) :
    upsert k v (upsert k v t) = upsert k v t := by
  unfold upsert
  rw [List.filter_append, List.filter_filter]
  simp

theorem advStoreExt {x y : AdvStore}
    (h1 : x.image_hashes = y.image_hashes)
    (h2 : x.audio_fingerprints = y.audio_fingerprints)
    (h3 : x.document_content = y.document_content)
    (h4 : x.video_thumbnails = y.video_thumbnails)
    (h5 : x.fuzzy_hashes = y.fuzzy_hashes) : x = y := by
  cases x
  cases y
  simp_all

set_option maxHeartbeats 1000000 in
theorem storeFP_image (o : Oracle) (store : AdvStore) (path : String) :
    (store_fingerprints o store path).image_hashes =
      if IMAGE_EXTENSIONS.contains (extLower path) then
        match o.imageHash path with
        | some h => upsert path h store.image_hashes
        | none => store.image_hashes
      else store.image_hashes := by
  unfold store_fingerprints
  dsimp only
  split_ifs
  all_goals try (rcases o.imageHash path with _ | vI)
  all_goals try (rcases o.audioFP path with _ | vA)
  all_goals try (rcases o.docText path with _ | vD)
  all_goals try (rcases o.videoHash path with _ | vV)
  all_goals try (rcases o.fuzzyHash path with _ | vF)
  all_goals try dsimp only
  all_goals try split_ifs
  all_goals rfl

set_option maxHeartbeats 1000000 in
theorem storeFP_audio (o : Oracle) (store : AdvStore) (path : String) :
    (store_fingerprints o store path).audio_fingerprints =
      if IMAGE_EXTENSIONS.contains (extLower path) then store.audio_fingerprints
      else if AUDIO_EXTENSIONS.contains (extLower path) then
        match o.audioFP path with
        | some f => upsert path f store.audio_fingerprints
        | none => store.audio_fingerprints
      else store.audio_fingerprints := by
  unfold store_fingerprints
  dsimp only
  split_ifs
  all_goals try (rcases o.imageHash path with _ | vI)
  all_goals try (rcases o.audioFP path with _ | vA)
  all_goals try (rcases o.docText path with _ | vD)
  all_goals try (rcases o.videoHash path with _ | vV)
  all_goals try (rcases o.fuzzyHash path with _ | vF)
  all_goals try dsimp only
  all_goals try split_ifs
  all_goals rfl

set_option maxHeartbeats 1000000 in
theorem storeFP_document (o : Oracle) (store : AdvStore) (path : String) :
    (store_fingerprints o store path).document_content =
      if IMAGE_EXTENSIONS.contains (extLower path) then store.document_content
      else if AUDIO_EXTENSIONS.contains (extLower path) then store.document_content
      else if DOCUMENT_EXTENSIONS.contains (extLower path) then
        match o.docText path with
        | some c =>
          if c ≠ "" then upsert path c store.document_content else store.document_content
        | none => store.document_content
      else store.document_content := by
  unfold store_fingerprints
  dsimp only
  split_ifs
  all_goals try (rcases o.imageHash path with _ | vI)
  all_goals try (rcases o.audioFP path with _ | vA)
  all_goals try (rcases o.docText path with _ | vD)
  all_goals try (rcases o.videoHash path with _ | vV)
  all_goals try (rcases o.fuzzyHash path with _ | vF)
  all_goals try dsimp only
  all_goals try split_ifs
  all_goals rfl

set_option maxHeartbeats 1000000 in
theorem storeFP_video (o : Oracle) (store : AdvStore) (path : String) :
    (store_fingerprints o store path).video_thumbnails =
      if IMAGE_EXTENSIONS.contains (extLower path) then store.video_thumbnails
      else if AUDIO_EXTENSIONS.contains (extLower path) then store.video_thumbnails
      else if DOCUMENT_EXTENSIONS.contains (extLower path) then store.video_thumbnails
      else if VIDEO_EXTENSIONS.contains (extLower path) then
        match o.videoHash path with
        | some h => upsert path h store.video_thumbnails
        | none => store.video_thumbnails
      else store.video_thumbnails := by
  unfold store_fingerprints
  dsimp only
  split_ifs
  all_goals try (rcases o.imageHash path with _ | vI)
  all_goals try (rcases o.audioFP path with _ | vA)
  all_goals try (rcases o.docText path with _ | vD)
  all_goals try (rcases o.videoHash path with _ | vV)
  all_goals try (rcases o.fuzzyHash path with _ | vF)
  all_goals try dsimp only
  all_goals try split_ifs
  all_goals rfl

set_option maxHeartbeats 1000000 in
theorem storeFP_fuzzy (o : Oracle) (store : AdvStore) (path : String) :
    (store_fingerprints o store path).fuzzy_hashes =
      if SUPPORTED_FILE_TYPES.contains (extLower path) then
        match o.fuzzyHash path with
        | some fh => upsert path fh store.fuzzy_hashes
        | none => store.fuzzy_hashes
      else store.fuzzy_hashes := by
  unfold store_fingerprints
  dsimp only
  split_ifs
  all_goals try (rcases o.imageHash path with _ | vI)
  all_goals try (rcases o.audioFP path with _ | vA)
  all_goals try (rcases o.docText path with _ | vD)
  all_goals try (rcases o.videoHash path with _ | vV)
  all_goals try (rcases o.fuzzyHash path with _ | vF)
  all_goals try dsimp only
  all_goals try split_ifs
  all_goals rfl

theorem store_fingerprints_idem (o : Oracle) (store : AdvStore) (path : String) :
    store_fingerprints o (store_fingerprints o store path) path =
      store_fingerprints o store path := by
  apply advStoreExt
  · rw [storeFP_image o (store_fingerprints o store path) path, storeFP_image o store path]
    split_ifs <;> (rcases o.imageHash path with _ | v <;> simp [upsert_idem])
  · rw [storeFP_audio o (store_fingerprints o store path) path, storeFP_audio o store path]
    split_ifs <;> (rcases o.audioFP path with _ | v <;> simp [upsert_idem])
  · rw [storeFP_document o (store_fingerprints o store path) path,
      storeFP_document o store path]
    split_ifs <;> (rcases o.docText path with _ | v <;> (try dsimp only) <;>
      (try split_ifs) <;> simp [upsert_idem])
  · rw [storeFP_video o (store_fingerprints o store path) path, storeFP_video o store path]
    split_ifs <;> (rcases o.videoHash path with _ | v <;> simp [upsert_idem])
  · rw [storeFP_fuzzy o (store_fingerprints o store path) path, storeFP_fuzzy o store path]
    split_ifs <;> (rcases o.fuzzyHash path with _ | v <;> simp [upsert_idem])

theorem store_fingerprints_filter_ne (o : Oracle) (store : AdvStore) (path k : String)
    (hk : k ≠ path) :
    (store_fingerprints o store path).image_hashes.filter (fun e => e.1 = k) =
        store.image_hashes.filter (fun e => e.1 = k) ∧
      (store_fingerprints o store path).audio_fingerprints.filter (fun e => e.1 = k) =
        store.audio_fingerprints.filter (fun e => e.1 = k) ∧
      (store_fingerprints o store path).document_content.filter (fun e => e.1 = k) =
        store.document_content.filter (fun e => e.1 = k) ∧
      (store_fingerprints o store path).video_thumbnails.filter (fun e => e.1 = k) =
        store.video_thumbnails.filter (fun e => e.1 = k) ∧
      (store_fingerprints o store path).fuzzy_hashes.filter (fun e => e.1 = k) =
        store.fuzzy_hashes.filter (fun e => e.1 = k) := by
  refine ⟨?_, ?_, ?_, ?_, ?_⟩
  · rw [storeFP_image]
    split_ifs <;> (rcases o.imageHash path with _ | v <;> simp [upsert_filter_ne hk])
  · rw [storeFP_audio]
    split_ifs <;> (rcases o.audioFP path with _ | v <;> simp [upsert_filter_ne hk])
  · rw [storeFP_document]
    split_ifs <;> (rcases o.docText path with _ | v <;> (try dsimp only) <;>
      (try split_ifs) <;> simp [upsert_filter_ne hk])
  · rw [storeFP_video]
    split_ifs <;> (rcases o.videoHash path with _ | v <;> simp [upsert_filter_ne hk])
  · rw [storeFP_fuzzy]
    split_ifs <;> (rcases o.fuzzyHash path with _ | v <;> simp [upsert_filter_ne hk])

theorem scenarioB_store_image :
    (store_fingerprints oracleB stB.store pathPngB).image_hashes =
      [(pathPngA, imgHashA), (pathPngB, imgHashB)] := by
  rw [storeFP_image]
  rw [if_pos (by decide)]
  rw [show oracleB.imageHash pathPngB = some imgHashB from rfl]
  decide

theorem scenarioB_images :
    find_similar_images oracleB fsB (store_fingerprints oracleB stB.store pathPngB) pathPngB =
      [(pathPngA, 1 - (6 : ℚ) / 64)] := by
  have hd : hashHammingDist imgHashB imgHashA = 6 := by decide
  have h1 : ¬ (pathPngA = pathPngB) := by decide
  have h2 : fsExists fsB pathPngA = true := by decide
  unfold find_similar_images
  rw [show oracleB.imageHash pathPngB = some imgHashB from rfl]
  dsimp only
  rw [scenarioB_store_image]
  simp [h1, h2, hd, SIMILARITY_THRESHOLDS, sortScoreDesc, insertScoreDesc]

theorem scenarioB_cls :
    (check_for_advanced_duplicates oracleB fsB stB pathPngB "b.png" "hb").1 =
      Classification.modalitySimilarDuplicate Modality.image pathPngA
        ((1 - (6 : ℚ) / 64 : ℚ) : ℝ) ∧
    (check_for_advanced_duplicates oracleB fsB stB pathPngB "b.png" "hb").2.store =
      store_fingerprints oracleB stB.store pathPngB := by
  have hL : dictLookup stB.file_hashes "hb" = none := by rfl
  have hN : List.find? (fun e => !decide (e.2 = "b.png") && is_similar_filename "b.png" e.2)
      stB.file_hashes = none := by decide
  have himg : (find_all_similarities oracleB fsB stB.store pathPngB).1.image_similarity =
      some [(pathPngA, 1 - (6 : ℚ) / 64)] := by
    unfold find_all_similarities
    dsimp only
    rw [if_pos (show IMAGE_EXTENSIONS.contains (extLower pathPngB) = true from by decide)]
    rw [scenarioB_images]
  have hpick : pickTop3 fsB [(pathPngA, 1 - (6 : ℚ) / 64)] =
      some (pathPngA, 1 - (6 : ℚ) / 64) := by
    unfold pickTop3
    rw [List.take_succ_cons, List.find?_cons_of_pos]
    simp only [Bool.and_eq_true, decide_eq_true_iff]
    exact ⟨by decide, by norm_num⟩
  have hM : decideModality fsB (find_all_similarities oracleB fsB stB.store pathPngB).1 =
      some (Modality.image, pathPngA, ((1 - (6 : ℚ) / 64 : ℚ) : ℝ)) := by
    unfold decideModality
    rw [himg]
    simp [hpick]
  constructor
  · simp [check_for_advanced_duplicates, hL, hN, hM]
  · simp [check_for_advanced_duplicates, hL, hN, hM]
    rfl

/-- C4 (amended): a file classified `ExactDuplicate` or `NameSimilarDuplicate`
leaves the handler state (hash table, modification database and fingerprint
store) unchanged.  A file classified `ModalitySimilarDuplicate` leaves the
hash table and modification database unchanged but its own fingerprints
HAVE been inserted into the store (`find_all_similarities` stores them
before scanning).  Only `NewUnique` also updates the hash table and the
modification database; its store effect equals the same single
fingerprint insertion. -/
theorem claim_C4_amended (o : Oracle) (fs : FileSystem) (st : HandlerState)
    (file_path file_name file_hash : String) :
    ((∃ orig sc, (check_for_advanced_duplicates o fs st file_path file_name file_hash).1 =
        Classification.exactDuplicate orig sc) →
      (check_for_advanced_duplicates o fs st file_path file_name file_hash).2 = st) ∧
    ((∃ orig sc, (check_for_advanced_duplicates o fs st file_path file_name file_hash).1 =
        Classification.nameSimilarDuplicate orig sc) →
      (check_for_advanced_duplicates o fs st file_path file_name file_hash).2 = st) ∧
    ((∃ m orig s, (check_for_advanced_duplicates o fs st file_path file_name file_hash).1 =
        Classification.modalitySimilarDuplicate m orig s) →
      (check_for_advanced_duplicates o fs st file_path file_name file_hash).2 =
        { st with store := store_fingerprints o st.store file_path }) ∧
    ((check_for_advanced_duplicates o fs st file_path file_name file_hash).1 =
        Classification.newUnique →
      (check_for_advanced_duplicates o fs st file_path file_name file_hash).2 =
        { st with
          file_hashes := dictInsert file_hash file_name st.file_hashes
          mod_db := dictInsert file_name file_hash st.mod_db
          store := store_fingerprints o st.store file_path }) := by
  cases hL : dictLookup st.file_hashes file_hash with
  | some orig =>
    by_cases hno : orig = file_name
    · cases hN : st.file_hashes.find? (fun e =>
          !decide (e.2 = file_name) && is_similar_filename file_name e.2) with
      | some e =>
        refine ⟨?_, ?_, ?_, ?_⟩ <;>
          simp [check_for_advanced_duplicates, hL, hno, hN]
      | none =>
        cases hM : decideModality fs (find_all_similarities o fs st.store file_path).1 with
        | some mc =>
          have hsnd : (find_all_similarities o fs st.store file_path).2 =
              store_fingerprints o st.store file_path := rfl
          refine ⟨?_, ?_, ?_, ?_⟩ <;>
            simp [check_for_advanced_duplicates, hL, hno, hN, hM, hsnd]
        | none =>
          have hsnd : (find_all_similarities o fs st.store file_path).2 =
              store_fingerprints o st.store file_path := rfl
          refine ⟨?_, ?_, ?_, ?_⟩ <;>
            simp [check_for_advanced_duplicates, hL, hno, hN, hM, hsnd,
              store_fingerprints_idem]
    · refine ⟨?_, ?_, ?_, ?_⟩ <;> simp [check_for_advanced_duplicates, hL, hno]
  | none =>
    cases hN : st.file_hashes.find? (fun e =>
        !decide (e.2 = file_name) && is_similar_filename file_name e.2) with
    | some e =>
      refine ⟨?_, ?_, ?_, ?_⟩ <;> simp [check_for_advanced_duplicates, hL, hN]
    | none =>
      cases hM : decideModality fs (find_all_similarities o fs st.store file_path).1 with
      | some mc =>
        have hsnd : (find_all_similarities o fs st.store file_path).2 =
            store_fingerprints o st.store file_path := rfl
        refine ⟨?_, ?_, ?_, ?_⟩ <;>
          simp [check_for_advanced_duplicates, hL, hN, hM, hsnd]
      | none =>
        have hsnd : (find_all_similarities o fs st.store file_path).2 =
            store_fingerprints o st.store file_path := rfl
        refine ⟨?_, ?_, ?_, ?_⟩ <;>
          simp [check_for_advanced_duplicates, hL, hN, hM, hsnd,
            store_fingerprints_idem]

/-- C4 counterexample: the claim as stated says the store is left unchanged
by every non-`NewUnique` pass.  Processing a fresh image that is
modality-similar to a stored one yields `ModalitySimilarDuplicate(image)`,
yet the fingerprint store has gained the fresh file's rows: the store after
the pass differs from the store before it. -/
theorem claim_C4_counterexample :
    (∃ p s, (check_for_advanced_duplicates oracleB fsB stB pathPngB "b.png" "hb").1 =
      Classification.modalitySimilarDuplicate Modality.image p s) ∧
    (check_for_advanced_duplicates oracleB fsB stB pathPngB "b.png" "hb").2.store ≠
      stB.store := by
  constructor
  · exact ⟨pathPngA, ((1 - (6 : ℚ) / 64 : ℚ) : ℝ), scenarioB_cls.1⟩
  · intro hcontra
    have h1 := (scenarioB_cls.2.symm.trans hcontra)
    have h2 := congrArg AdvStore.image_hashes h1
    rw [scenarioB_store_image] at h2
    exact absurd h2 (by decide)

/-- C4 witness: in the concrete image scenario the modality-similar pass
leaves the hash table and modification database untouched while the store
carries the freshly inserted fingerprints. -/
theorem claim_C4_witness :
    (check_for_advanced_duplicates oracleB fsB stB pathPngB "b.png" "hb").2 =
      { stB with store := store_fingerprints oracleB stB.store pathPngB } :=
  (claim_C4_amended oracleB fsB stB pathPngB "b.png" "hb").2.2.1
    ⟨Modality.image, pathPngA, ((1 - (6 : ℚ) / 64 : ℚ) : ℝ), scenarioB_cls.1⟩

/-- C5: for image and for video comparisons a stored candidate qualifies
(appears in the scan result) precisely when the bitwise Hamming distance
between the perceptual hashes is at most the `image_hash` threshold, which
equals 10; the returned score of a qualifying candidate is
`1 - distance/64`; the video-thumbnail scan uses the same threshold
constant as the image scan. -/
theorem claim_C5 :
    SIMILARITY_THRESHOLDS.image_hash = 10 ∧
    (∀ (o : Oracle) (fs : FileSystem) (store : AdvStore) (path : String) (qh : ImgHash)
        (p : String) (sc : ℚ), o.imageHash path = some qh →
      ((p, sc) ∈ find_similar_images o fs store path ↔
        ∃ h, (p, h) ∈ store.image_hashes ∧ p ≠ path ∧ fsExists fs p = true ∧
          hashHammingDist qh h ≤ SIMILARITY_THRESHOLDS.image_hash ∧
          sc = 1 - (hashHammingDist qh h : ℚ) / 64)) ∧
    (∀ (o : Oracle) (fs : FileSystem) (store : AdvStore) (path : String) (qh : ImgHash)
        (p : String) (sc : ℚ), o.videoHash path = some qh →
      ((p, sc) ∈ find_similar_videos o fs store path ↔
        ∃ h, (p, h) ∈ store.video_thumbnails ∧ p ≠ path ∧ fsExists fs p = true ∧
          hashHammingDist qh h ≤ SIMILARITY_THRESHOLDS.image_hash ∧
          sc = 1 - (hashHammingDist qh h : ℚ) / 64)) := by
  refine ⟨rfl, ?_, ?_⟩
  · intro o fs store path qh p sc hq
    exact mem_find_similar_images hq
  · intro o fs store path qh p sc hq
    exact mem_find_similar_videos hq

/-- C5 witness: the characterization instantiated in the concrete image
scenario, where the stored image at Hamming distance 6 qualifies with
score `1 - 6/64 = 29/32`. -/
theorem claim_C5_witness :
    ((pathPngA, (29 / 32 : ℚ)) ∈
        find_similar_images oracleB fsB (store_fingerprints oracleB stB.store pathPngB) pathPngB ↔
      ∃ h, (pathPngA, h) ∈ (store_fingerprints oracleB stB.store pathPngB).image_hashes ∧
        pathPngA ≠ pathPngB ∧ fsExists fsB pathPngA = true ∧
        hashHammingDist imgHashB h ≤ SIMILARITY_THRESHOLDS.image_hash ∧
        (29 / 32 : ℚ) = 1 - (hashHammingDist imgHashB h : ℚ) / 64) :=
  claim_C5.2.1 oracleB fsB (store_fingerprints oracleB stB.store pathPngB) pathPngB imgHashB
    pathPngA (29 / 32) (by rfl)

/-- C7 (amended): a document whose extract is missing, empty, or shorter
than 100 characters after stripping never produces document-similarity
candidates as the querying side: the scan returns the empty list.  The
length guard applies only to the querying document; a short document
already stored can still be returned as a qualifying candidate of a longer
query, as the counterexample shows. -/
theorem claim_C7_amended (o : Oracle) (fs : FileSystem) (store : AdvStore)
    (path content : String) (hq : o.docText path = some content)
    (hshort : (pyStrip content).length < 100) :
    find_similar_documents o fs store path = [] := by
  unfold find_similar_documents
  simp only [hq]
  by_cases hne : content = ""
  · simp [hne]
  · simp [hne, hshort]

set_option maxRecDepth 8000 in
/-- C7 counterexample: the claim as stated says a document shorter than the
minimum comparison length never produces a document-similarity match even
against its own near-duplicate.  With a stored 99-character document and a
100-character near-duplicate as the query, the scan returns the short
stored document as a qualifying candidate with ratio `198/199 ≥ 0.85`: the
exclusion is enforced on the query side only. -/
theorem claim_C7_counterexample :
    (pyStrip shortTextC).length < 100 ∧
    (pathDocS, shortTextC) ∈ storeC.document_content ∧
    find_similar_documents oracleC fsC storeC pathDocQ = [(pathDocS, 198 / 199)] ∧
    (85 : ℚ) / 100 ≤ 198 / 199 := by
  have hr : sequenceMatcherRatio longTextC shortTextC = 198 / 199 := by
    unfold sequenceMatcherRatio
    dsimp only
    rw [show matchTotal longTextC.data shortTextC.data
        (longTextC.data.length + shortTextC.data.length + 1) 0 longTextC.data.length 0
        shortTextC.data.length = 99 from by decide]
    rw [show longTextC.data.length = 100 from by decide,
      show shortTextC.data.length = 99 from by decide]
    norm_num
  have h1 : ¬ (pathDocS = pathDocQ) := by decide
  have h2 : fsExists fsC pathDocS = true := by decide
  have h3 : shortTextC ≠ "" := by decide
  have h4 : ¬ (longTextC = "") := by decide
  have h5 : ¬ ((pyStrip longTextC).length < 100) := by decide
  have hcmp : SIMILARITY_THRESHOLDS.text_similarity ≤ (198 : ℚ) / 199 := by
    norm_num [SIMILARITY_THRESHOLDS]
  refine ⟨by decide, by decide, ?_, by norm_num⟩
  unfold find_similar_documents
  rw [show oracleC.docText pathDocQ = some longTextC from rfl]
  dsimp only
  rw [if_neg h4, if_neg h5]
  rw [show storeC.document_content = [(pathDocS, shortTextC)] from rfl]
  simp [h1, h2, h3, hr, hcmp, sortScoreDesc, insertScoreDesc]

/-- C7 witness: the short document as the querying side produces no
candidates. -/
theorem claim_C7_witness :
    find_similar_documents oracleC fsC storeC pathDocS = [] :=
  claim_C7_amended oracleC fsC storeC pathDocS shortTextC (by rfl) (by decide)

/-- C9: two filenames whose extensions differ case-insensitively are never
similar, regardless of their base names: `is_similar_filename` returns
false, so name-similar classification requires equal extensions. -/
theorem claim_C9 (file1 file2 : String)
    (h : pyLower (pySplitext file1).2 ≠ pyLower (pySplitext file2).2) :
    is_similar_filename file1 file2 = false := by
  unfold is_similar_filename
  simp [h]

/-- C9 witness: identical base names with different extensions are not
similar. -/
theorem claim_C9_witness :
    pyLower (pySplitext "a.txt").2 ≠ pyLower (pySplitext "a.pdf").2 ∧
    is_similar_filename "a.txt" "a.pdf" = false :=
  ⟨by decide, claim_C9 "a.txt" "a.pdf" (by decide)⟩

/-- C10: a file smaller than 1024 bytes or larger than 500 MB is rejected
by the admission filter (`should_process_file` returns false), and the
event handler consequently leaves the state unchanged and emits no
classification: nothing is fingerprinted, classified, or written to any
store for such a file. -/
theorem claim_C10 (fs : FileSystem) (file_path : String) (sz : Nat)
    (hsz : fsSize fs file_path = some sz)
    (hbad : sz < MIN_FILE_SIZE ∨ MAX_FILE_SIZE < sz) :
    should_process_file fs file_path = false ∧
    ∀ (o : Oracle) (obs : Nat → Option Nat) (st : HandlerState),
      handle_file_event o fs obs st file_path = (st, none) := by
  have h1 : should_process_file fs file_path = false := by
    unfold should_process_file
    rw [hsz]
    dsimp only
    split_ifs with g1 g2 g3 g4 g5 g6
    · rfl
    · rfl
    · rfl
    · rfl
    · rfl
    · rfl
    · exfalso
      rcases hbad with hb | hb
      · exact g5 hb
      · exact g6 hb
  refine ⟨h1, ?_⟩
  intro o obs st
  unfold handle_file_event
  simp [h1]

/-- C10 witness: a 100-byte text file is rejected and the handler pass is a
no-op on it. -/
theorem claim_C10_witness :
    should_process_file (⟨[(pathTxtA, 100)]⟩ : FileSystem) pathTxtA = false ∧
    handle_file_event oracleA ⟨[(pathTxtA, 100)]⟩ obsA st0A pathTxtA = (st0A, none) := by
  refine ⟨(claim_C10 ⟨[(pathTxtA, 100)]⟩ pathTxtA 100 (by rfl) (Or.inl (by decide))).1,
    (claim_C10 ⟨[(pathTxtA, 100)]⟩ pathTxtA 100 (by rfl) (Or.inl (by decide))).2 oracleA obsA
      st0A⟩

theorem dictLookup_dictInsert_self {α : Type} (k : String) (v : α) (d : List (String × α)) :
    dictLookup (dictInsert k v d) k = some v := by
  induction d with
  | nil => simp [dictInsert, dictLookup]
  | cons e es ih =>
    by_cases he : e.1 = k
    · simp [dictInsert, dictLookup, he]
    · simpa [dictInsert, dictLookup, he] using ih

theorem mem_dictInsert {α : Type} {e : String × α} {k : String} {v : α}
    {d : List (String × α)} (h : e ∈ dictInsert k v d) : e = (k, v) ∨ e ∈ d := by
  induction d with
  | nil => simpa [dictInsert] using h
  | cons f fs ih =>
    by_cases hf : f.1 = k
    · rw [dictInsert, if_pos hf] at h
      rcases List.mem_cons.mp h with h' | h'
      · exact Or.inl h'
      · exact Or.inr (List.mem_cons_of_mem _ h')
    · rw [dictInsert, if_neg hf] at h
      rcases List.mem_cons.mp h with h' | h'
      · exact Or.inr (h' ▸ List.mem_cons_self ..)
      · rcases ih h' with h'' | h''
        · exact Or.inl h''
        · exact Or.inr (List.mem_cons_of_mem _ h'')

theorem dictInsert_idem {α : Type} (k : String) (v : α) (d : List (String × α)) :
    dictInsert k v (dictInsert k v d) = dictInsert k v d := by
  induction d with
  | nil => simp [dictInsert]
  | cons e es ih =>
    by_cases he : e.1 = k
    · simp [dictInsert, he]
    · simp only [dictInsert, if_neg he]
      rw [ih]

theorem find_all_similarities_idem (o : Oracle) (fs : FileSystem) (store : AdvStore)
    (path : String) :
    find_all_similarities o fs (store_fingerprints o store path) path =
      find_all_similarities o fs store path := by
  unfold find_all_similarities
  rw [store_fingerprints_idem]

theorem check_newUnique_inv {o : Oracle} {fs : FileSystem} {st st1 : HandlerState}
    {file_path file_name file_hash : String}
    (hc : check_for_advanced_duplicates o fs st file_path file_name file_hash =
      (Classification.newUnique, st1)) :
    (∀ orig, dictLookup st.file_hashes file_hash = some orig → orig = file_name) ∧
    List.find? (fun e => !decide (e.2 = file_name) && is_similar_filename file_name e.2)
      st.file_hashes = none ∧
    decideModality fs (find_all_similarities o fs st.store file_path).1 = none ∧
    st1 = { st with
      file_hashes := dictInsert file_hash file_name st.file_hashes
      mod_db := dictInsert file_name file_hash st.mod_db
      store := store_fingerprints o st.store file_path } := by
  cases hL : dictLookup st.file_hashes file_hash with
  | some orig =>
    by_cases hno : orig = file_name
    · cases hN : st.file_hashes.find? (fun e =>
          !decide (e.2 = file_name) && is_similar_filename file_name e.2) with
      | some e => simp [check_for_advanced_duplicates, hL, hno, hN] at hc
      | none =>
        cases hM : decideModality fs (find_all_similarities o fs st.store file_path).1 with
        | some mc => simp [check_for_advanced_duplicates, hL, hno, hN, hM] at hc
        | none =>
          have hsnd : (find_all_similarities o fs st.store file_path).2 =
              store_fingerprints o st.store file_path := rfl
          refine ⟨fun orig' ho => (Option.some.inj ho) ▸ hno, rfl, rfl, ?_⟩
          simp [check_for_advanced_duplicates, hL, hno, hN, hM, hsnd,
            store_fingerprints_idem] at hc
          exact hc.symm
    · simp [check_for_advanced_duplicates, hL, hno] at hc
  | none =>
    cases hN : st.file_hashes.find? (fun e =>
        !decide (e.2 = file_name) && is_similar_filename file_name e.2) with
    | some e => simp [check_for_advanced_duplicates, hL, hN] at hc
    | none =>
      cases hM : decideModality fs (find_all_similarities o fs st.store file_path).1 with
      | some mc => simp [check_for_advanced_duplicates, hL, hN, hM] at hc
      | none =>
        have hsnd : (find_all_similarities o fs st.store file_path).2 =
            store_fingerprints o st.store file_path := rfl
        refine ⟨fun orig' ho => absurd ho (by simp), rfl, rfl, ?_⟩
        simp [check_for_advanced_duplicates, hL, hN, hM, hsnd,
          store_fingerprints_idem] at hc
        exact hc.symm

theorem check_newUnique_fwd {o : Oracle} {fs : FileSystem} {st : HandlerState}
    {file_path file_name file_hash : String}
    (hL : ∀ orig, dictLookup st.file_hashes file_hash = some orig → orig = file_name)
    (hN : List.find? (fun e => !decide (e.2 = file_name) && is_similar_filename file_name e.2)
      st.file_hashes = none)
    (hM : decideModality fs (find_all_similarities o fs st.store file_path).1 = none) :
    check_for_advanced_duplicates o fs st file_path file_name file_hash =
      (Classification.newUnique, { st with
        file_hashes := dictInsert file_hash file_name st.file_hashes
        mod_db := dictInsert file_name file_hash st.mod_db
        store := store_fingerprints o st.store file_path }) := by
  have hsnd : (find_all_similarities o fs st.store file_path).2 =
      store_fingerprints o st.store file_path := rfl
  cases hL' : dictLookup st.file_hashes file_hash with
  | some orig =>
    have hno : orig = file_name := hL orig hL'
    simp [check_for_advanced_duplicates, hL', hno, hN, hM, hsnd, store_fingerprints_idem]
  | none =>
    simp [check_for_advanced_duplicates, hL', hN, hM, hsnd, store_fingerprints_idem]

/-- C2 (amended): processing the same stabilized file twice does not create
two store rows — in fact a second pass whose first pass reported
`NewUnique` leaves the handler state exactly unchanged — but the second
pass is NOT classified `ExactDuplicate` of itself: unless it is suppressed
by the in-flight admission set (second conjunct), it reports `NewUnique`
again, because the exact-hash branch requires the stored name to differ
from the incoming name. -/
theorem claim_C2_amended (o : Oracle) (fs : FileSystem) (obs : Nat → Option Nat)
    (st st1 : HandlerState) (file_path : String)
    (h1 : handle_file_event o fs obs st file_path = (st1, some Classification.newUnique)) :
    handle_file_event o fs obs st1 file_path = (st1, some Classification.newUnique) ∧
    ∀ st' : HandlerState, file_path ∈ st'.processing_files →
      handle_file_event o fs obs st' file_path = (st', none) := by
  constructor
  · unfold handle_file_event at h1
    by_cases hsp : should_process_file fs file_path = false
    · simp [hsp] at h1
    by_cases hpr : file_path ∈ st.processing_files
    · simp [hsp, hpr] at h1
    by_cases hw : wait_for_stable_file obs = false
    · simp [hsp, hpr, hw] at h1
    cases hmd : o.md5File file_path with
    | none => simp [hsp, hpr, hw, hmd] at h1
    | some fh =>
      rw [if_neg hsp, if_neg hpr, if_neg hw, hmd] at h1
      have hc1 : (check_for_advanced_duplicates o fs st file_path (ntBasename file_path) fh).1 =
          Classification.newUnique := by
        have h2 := congrArg Prod.snd h1
        simpa using h2
      have hc2 : (check_for_advanced_duplicates o fs st file_path (ntBasename file_path) fh).2 =
          st1 := congrArg Prod.fst h1
      have hcheck : check_for_advanced_duplicates o fs st file_path (ntBasename file_path) fh =
          (Classification.newUnique, st1) := by
        rw [← hc1, ← hc2]
      obtain ⟨hL, hN, hM, hst1⟩ := check_newUnique_inv hcheck
      have hL2 : ∀ orig, dictLookup st1.file_hashes fh = some orig →
          orig = ntBasename file_path := by
        intro orig ho
        rw [hst1] at ho
        dsimp only at ho
        rw [dictLookup_dictInsert_self] at ho
        exact (Option.some.inj ho).symm
      have hN2 : List.find? (fun e => !decide (e.2 = ntBasename file_path) &&
          is_similar_filename (ntBasename file_path) e.2) st1.file_hashes = none := by
        rw [List.find?_eq_none]
        intro e he
        rw [hst1] at he
        dsimp only at he
        rcases mem_dictInsert he with h' | h'
        · subst h'
          simp
        · have h3 := List.find?_eq_none.mp hN e h'
          exact h3
      have hM2 : decideModality fs (find_all_similarities o fs st1.store file_path).1 = none := by
        rw [hst1]
        dsimp only
        rw [find_all_similarities_idem]
        exact hM
      have hfin := check_newUnique_fwd hL2 hN2 hM2
      have hrec : ({ st1 with
          file_hashes := dictInsert fh (ntBasename file_path) st1.file_hashes
          mod_db := dictInsert (ntBasename file_path) fh st1.mod_db
          store := store_fingerprints o st1.store file_path } : HandlerState) = st1 := by
        rw [hst1]
        dsimp only
        rw [dictInsert_idem, dictInsert_idem, store_fingerprints_idem]
      unfold handle_file_event
      rw [if_neg hsp]
      rw [if_neg (show ¬ file_path ∈ st1.processing_files from by
        rw [hst1]; simpa using hpr)]
      rw [if_neg hw, hmd]
      dsimp only
      rw [hfin]
      dsimp only
      rw [hrec]
  · intro st' hmem
    unfold handle_file_event
    by_cases hsp' : should_process_file fs file_path = false
    · rw [if_pos hsp']
    · rw [if_neg hsp', if_pos hmem]

/-- C2 counterexample: the claim as stated says the second pass over the
same stabilized file either classifies it `ExactDuplicate` of itself or is
suppressed by the admission table, and that `NewUnique` is never reported
twice.  Processing a fresh file twice in sequence (its in-flight entry is
discarded when the first pass finishes, so nothing suppresses the second
event) reports `NewUnique` both times and never `ExactDuplicate`. -/
theorem claim_C2_counterexample :
    (handle_file_event oracleA fsA obsA st0A pathTxtA).2 = some Classification.newUnique ∧
    (handle_file_event oracleA fsA obsA
        (handle_file_event oracleA fsA obsA st0A pathTxtA).1 pathTxtA).2 =
      some Classification.newUnique ∧
    (handle_file_event oracleA fsA obsA st0A pathTxtA).1.processing_files = [] := by
  refine ⟨by rfl, by rfl, by rfl⟩

/-- C2 witness: the amended theorem applied to the concrete text file run,
whose first pass computes to `NewUnique` with the expected state. -/
theorem claim_C2_witness :
    handle_file_event oracleA fsA obsA st1A pathTxtA =
      (st1A, some Classification.newUnique) :=
  (claim_C2_amended oracleA fsA obsA st0A st1A pathTxtA (by rfl)).1

/-- C8: every per-modality scan of the fingerprint store excludes the
querying file's own path from the candidates and only returns candidates
whose stored path still exists on disk at read time; and the scan pass
never removes rows: the only store mutation of the whole pass is the
insert-or-replace of the querying path's own rows, so rows keyed by any
other path are preserved exactly. -/
theorem claim_C8 :
    (∀ (o : Oracle) (fs : FileSystem) (store : AdvStore) (path p : String) (sc : ℚ),
      (p, sc) ∈ find_similar_images o fs store path → p ≠ path ∧ fsExists fs p = true) ∧
    (∀ (o : Oracle) (fs : FileSystem) (store : AdvStore) (path p : String) (s : ℝ),
      (p, s) ∈ find_similar_audio o fs store path → p ≠ path ∧ fsExists fs p = true) ∧
    (∀ (o : Oracle) (fs : FileSystem) (store : AdvStore) (path p : String) (sc : ℚ),
      (p, sc) ∈ find_similar_documents o fs store path → p ≠ path ∧ fsExists fs p = true) ∧
    (∀ (o : Oracle) (fs : FileSystem) (store : AdvStore) (path p : String) (sc : ℚ),
      (p, sc) ∈ find_similar_videos o fs store path → p ≠ path ∧ fsExists fs p = true) ∧
    (∀ (o : Oracle) (fs : FileSystem) (store : AdvStore) (path p : String) (sc : ℚ),
      (p, sc) ∈ find_fuzzy_similar o fs store path → p ≠ path ∧ fsExists fs p = true) ∧
    (∀ (o : Oracle) (fs : FileSystem) (store : AdvStore) (path k : String), k ≠ path →
      (find_all_similarities o fs store path).2.image_hashes.filter (fun e => e.1 = k) =
          store.image_hashes.filter (fun e => e.1 = k) ∧
        (find_all_similarities o fs store path).2.audio_fingerprints.filter (fun e => e.1 = k) =
          store.audio_fingerprints.filter (fun e => e.1 = k) ∧
        (find_all_similarities o fs store path).2.document_content.filter (fun e => e.1 = k) =
          store.document_content.filter (fun e => e.1 = k) ∧
        (find_all_similarities o fs store path).2.video_thumbnails.filter (fun e => e.1 = k) =
          store.video_thumbnails.filter (fun e => e.1 = k) ∧
        (find_all_similarities o fs store path).2.fuzzy_hashes.filter (fun e => e.1 = k) =
          store.fuzzy_hashes.filter (fun e => e.1 = k)) := by
  refine ⟨?_, ?_, ?_, ?_, ?_, ?_⟩
  · intro o fs store path p sc hmem
    cases hq : o.imageHash path with
    | none => rw [find_similar_images, hq] at hmem; simp at hmem
    | some qh =>
      obtain ⟨h, _, hne, hex, _, _⟩ := (mem_find_similar_images hq).mp hmem
      exact ⟨hne, hex⟩
  · intro o fs store path p s hmem
    cases hq : o.audioFP path with
    | none => rw [find_similar_audio, hq] at hmem; simp at hmem
    | some q =>
      obtain ⟨f, _, hne, hex, _, _, _, _⟩ := (mem_find_similar_audio hq).mp hmem
      exact ⟨hne, hex⟩
  · intro o fs store path p sc hmem
    cases hq : o.docText path with
    | none => rw [find_similar_documents, hq] at hmem; simp at hmem
    | some content =>
      by_cases hne : content = ""
      · rw [find_similar_documents, hq] at hmem
        simp [hne] at hmem
      · by_cases hlen : (pyStrip content).length < 100
        · rw [find_similar_documents, hq] at hmem
          simp [hne, hlen] at hmem
        · obtain ⟨txt, _, hp, hex, _, _, _⟩ :=
            (mem_find_similar_documents hq hne hlen).mp hmem
          exact ⟨hp, hex⟩
  · intro o fs store path p sc hmem
    cases hq : o.videoHash path with
    | none => rw [find_similar_videos, hq] at hmem; simp at hmem
    | some qh =>
      obtain ⟨h, _, hne, hex, _, _⟩ := (mem_find_similar_videos hq).mp hmem
      exact ⟨hne, hex⟩
  · intro o fs store path p sc hmem
    cases hq : o.fuzzyHash path with
    | none => rw [find_fuzzy_similar, hq] at hmem; simp at hmem
    | some fh =>
      obtain ⟨sh, _, hne, hex, _, _⟩ := (mem_find_fuzzy_similar hq).mp hmem
      exact ⟨hne, hex⟩
  · intro o fs store path k hk
    have hsnd : (find_all_similarities o fs store path).2 =
        store_fingerprints o store path := rfl
    rw [hsnd]
    exact store_fingerprints_filter_ne o store path k hk

/-- C8 witness: in the concrete image scenario the stored candidate
returned by the image scan is a different path that exists on disk. -/
theorem claim_C8_witness : pathPngA ≠ pathPngB ∧ fsExists fsB pathPngA = true :=
  claim_C8.1 oracleB fsB (store_fingerprints oracleB stB.store pathPngB) pathPngB pathPngA
    (1 - (6 : ℚ) / 64) (by rw [scenarioB_images]; exact List.mem_singleton.mpr rfl)


theorem stabLoop_done {obs : Nat → Option Nat} {fuel t stable : Nat} {last : Option Nat}
    (h : 3 ≤ stable) : stabLoop obs fuel t stable last = (true, t) := by
  cases fuel <;> rw [stabLoop] <;> rw [if_pos h]

theorem stabLoop_none {obs : Nat → Option Nat} {fuel t stable : Nat} {last : Option Nat}
    (h3 : ¬ 3 ≤ stable) (h : obs t = none) :
    stabLoop obs (fuel + 1) t stable last = (false, t) := by
  rw [stabLoop, if_neg h3, h]

theorem stabLoop_step {obs : Nat → Option Nat} {fuel t stable : Nat} {last : Option Nat}
    {sz : Nat} (h3 : ¬ 3 ≤ stable) (h : obs t = some sz) :
    stabLoop obs (fuel + 1) t stable last =
      if last = some sz ∧ 0 < sz then stabLoop obs fuel (t + 1) (stable + 1) last
      else stabLoop obs fuel (t + 1) 0 (some sz) := by
  rw [stabLoop, if_neg h3, h]

theorem stabInv_init (obs : Nat → Option Nat) : stabInv obs 0 0 none := by
  refine ⟨by omega, ?_, fun _ => ⟨rfl, rfl⟩, ?_⟩
  · intro u hu
    exact absurd hu (Nat.not_lt_zero u)
  · intro h
    exact absurd h (by omega)

theorem stabInv_reset {obs : Nat → Option Nat} {t stable : Nat} {last : Option Nat}
    (hInv : stabInv obs t stable last) (sz : Nat) (hobs : obs t = some sz) :
    stabInv obs (t + 1) 0 (some sz) := by
  obtain ⟨h3, hsome, h0, hpos⟩ := hInv
  refine ⟨by omega, ?_, by omega, ?_⟩
  · intro u hu
    rcases Nat.lt_succ_iff_lt_or_eq.mp hu with h | h
    · exact hsome u h
    · rw [h, hobs]
      rfl
  · intro _
    refine ⟨sz, rfl, ?_, by omega, by omega⟩
    intro d hd
    have hd0 : d = 0 := by omega
    subst hd0
    rw [show t + 1 - 1 - 0 = t from by omega]
    exact hobs

theorem stabInv_inc {obs : Nat → Option Nat} {t stable : Nat} {last : Option Nat}
    (hInv : stabInv obs t stable last) (hlt : stable < 3) (sz : Nat)
    (hobs : obs t = some sz) (hlast : last = some sz) (hsz : 0 < sz) :
    stabInv obs (t + 1) (stable + 1) last := by
  obtain ⟨h3, hsome, h0, hpos⟩ := hInv
  have ht : 0 < t := by
    rcases Nat.eq_zero_or_pos t with h | h
    · rw [(h0 h).2] at hlast
      exact absurd hlast (by simp)
    · exact h
  obtain ⟨v, hv, hvobs, hvpos, hst⟩ := hpos ht
  have hveq : v = sz := by
    rw [hv] at hlast
    exact Option.some.inj hlast
  refine ⟨by omega, ?_, by omega, ?_⟩
  · intro u hu
    rcases Nat.lt_succ_iff_lt_or_eq.mp hu with h | h
    · exact hsome u h
    · rw [h, hobs]
      rfl
  · intro _
    refine ⟨v, hv, ?_, fun _ => hveq ▸ hsz, by omega⟩
    intro d hd
    cases d with
    | zero =>
      rw [show t + 1 - 1 - 0 = t from by omega, hobs, hveq]
    | succ d' =>
      rw [show t + 1 - 1 - (d' + 1) = t - 1 - d' from by omega]
      exact hvobs d' (by omega)

theorem stabInv_run {obs : Nat → Option Nat} {t : Nat} {last : Option Nat}
    (hInv : stabInv obs t 3 last) (ht30 : t ≤ 30) : ∃ i, stableRunAt obs i := by
  obtain ⟨_, hsome, h0, hpos⟩ := hInv
  have ht : 0 < t := by
    rcases Nat.eq_zero_or_pos t with h | h
    · exact absurd (h0 h).1 (by omega)
    · exact h
  obtain ⟨v, hv, hvobs, hvpos, hst⟩ := hpos ht
  have ht4 : 4 ≤ t := by omega
  refine ⟨t - 4, by omega, ?_, v, hvpos (by omega), ?_, ?_, ?_, ?_⟩
  · intro u hu
    exact hsome u (by omega)
  · have h := hvobs 3 (by omega)
    rwa [show t - 1 - 3 = t - 4 from by omega] at h
  · have h := hvobs 2 (by omega)
    rwa [show t - 1 - 2 = t - 4 + 1 from by omega] at h
  · have h := hvobs 1 (by omega)
    rwa [show t - 1 - 1 = t - 4 + 2 from by omega] at h
  · have h := hvobs 0 (by omega)
    rwa [show t - 1 - 0 = t - 4 + 3 from by omega] at h

theorem stabLoop_true_run {obs : Nat → Option Nat} :
    ∀ fuel t stable last, t + fuel ≤ 30 → stabInv obs t stable last →
      (stabLoop obs fuel t stable last).1 = true → ∃ i, stableRunAt obs i := by
  intro fuel
  induction fuel with
  | zero =>
    intro t stable last h30 hInv htrue
    by_cases h3 : 3 ≤ stable
    · have h33 : stable = 3 := by
        have := hInv.1
        omega
      subst h33
      exact stabInv_run hInv (by omega)
    · rw [stabLoop, if_neg h3] at htrue
      simp at htrue
  | succ fuel ih =>
    intro t stable last h30 hInv htrue
    by_cases h3 : 3 ≤ stable
    · have h33 : stable = 3 := by
        have := hInv.1
        omega
      subst h33
      exact stabInv_run hInv (by omega)
    · cases hobs : obs t with
      | none =>
        rw [stabLoop_none h3 hobs] at htrue
        simp at htrue
      | some sz =>
        rw [stabLoop_step h3 hobs] at htrue
        by_cases hc : last = some sz ∧ 0 < sz
        · rw [if_pos hc] at htrue
          exact ih (t + 1) (stable + 1) last (by omega)
            (stabInv_inc hInv (by omega) sz hobs hc.1 hc.2) htrue
        · rw [if_neg hc] at htrue
          exact ih (t + 1) 0 (some sz) (by omega) (stabInv_reset hInv sz hobs) htrue

theorem stabLoop_incr_true {obs : Nat → Option Nat} {s : Nat} (hs : 0 < s) :
    ∀ d fuel t stable, 3 ≤ stable + d → d ≤ fuel →
      (∀ u, t ≤ u → u < t + d → obs u = some s) →
      (stabLoop obs fuel t stable (some s)).1 = true := by
  intro d
  induction d with
  | zero =>
    intro fuel t stable h3 _ _
    rw [stabLoop_done (by omega : 3 ≤ stable)]
  | succ d ih =>
    intro fuel t stable h3 hdf hobs
    by_cases hst : 3 ≤ stable
    · rw [stabLoop_done hst]
    · obtain ⟨fuel', rfl⟩ : ∃ f', fuel = f' + 1 := ⟨fuel - 1, by omega⟩
      rw [stabLoop_step hst (hobs t (le_refl t) (by omega))]
      rw [if_pos ⟨rfl, hs⟩]
      exact ih fuel' (t + 1) (stable + 1) (by omega) (by omega)
        (fun u hu1 hu2 => hobs u (by omega) (by omega))

theorem stabLoop_reach_run {obs : Nat → Option Nat} {i s : Nat} (hs : 0 < s)
    (h0 : obs i = some s) (h1 : obs (i + 1) = some s) (h2 : obs (i + 2) = some s)
    (h3 : obs (i + 3) = some s) (hall : ∀ u, u ≤ i + 3 → (obs u).isSome) :
    ∀ fuel t stable last, t ≤ i → i + 4 ≤ t + fuel →
      (stabLoop obs fuel t stable last).1 = true := by
  intro fuel
  induction fuel with
  | zero =>
    intro t stable last hti hif
    omega
  | succ fuel ih =>
    intro t stable last hti hif
    by_cases hst : 3 ≤ stable
    · rw [stabLoop_done hst]
    · by_cases hti' : t = i
      · subst hti'
        rw [stabLoop_step hst h0]
        by_cases hc : last = some s ∧ 0 < s
        · rw [if_pos hc, hc.1]
          refine stabLoop_incr_true hs 3 fuel (t + 1) (stable + 1) (by omega) (by omega) ?_
          intro u hu1 hu2
          have hu : u = t + 1 ∨ u = t + 2 ∨ u = t + 3 := by omega
          rcases hu with h | h | h <;> rw [h] <;> assumption
        · rw [if_neg hc]
          refine stabLoop_incr_true hs 3 fuel (t + 1) 0 (by omega) (by omega) ?_
          intro u hu1 hu2
          have hu : u = t + 1 ∨ u = t + 2 ∨ u = t + 3 := by omega
          rcases hu with h | h | h <;> rw [h] <;> assumption
      · obtain ⟨sz, hsz⟩ := Option.isSome_iff_exists.mp (hall t (by omega))
        rw [stabLoop_step hst hsz]
        by_cases hc : last = some sz ∧ 0 < sz
        · rw [if_pos hc]
          exact ih (t + 1) (stable + 1) last (by omega) (by omega)
        · rw [if_neg hc]
          exact ih (t + 1) 0 (some sz) (by omega) (by omega)

theorem wait_iff_run (obs : Nat → Option Nat) :
    wait_for_stable_file obs = true ↔ ∃ i, stableRunAt obs i := by
  constructor
  · intro h
    exact stabLoop_true_run 30 0 0 none (by omega) (stabInv_init obs) h
  · rintro ⟨i, hi30, hall, s, hs, h0, h1, h2, h3⟩
    exact stabLoop_reach_run hs h0 h1 h2 h3 hall 30 0 0 none (by omega) (by omega)

theorem wait_monotone_false (f : Nat → Nat) (hmono : ∀ t, f t < f (t + 1)) :
    wait_for_stable_file (fun t => some (f t)) = false := by
  cases hb : wait_for_stable_file (fun t => some (f t)) with
  | false => rfl
  | true =>
    obtain ⟨i, _, _, s, hs, h0, h1, _, _⟩ := (wait_iff_run _).mp hb
    have e0 : f i = s := Option.some.inj h0
    have e1 : f (i + 1) = s := Option.some.inj h1
    have := hmono i
    omega

theorem stabLoop_count_exact {f : Nat → Nat} {g : Nat} (hpos : 0 < f g)
    (hconst : ∀ t, g ≤ t → f t = f g) :
    ∀ d k fuel, k + d = 3 → d ≤ fuel →
      stabLoop (fun t => some (f t)) fuel (g + 1 + k) k (some (f g)) = (true, g + 4) := by
  intro d
  induction d with
  | zero =>
    intro k fuel h3 _
    have hk : k = 3 := by omega
    subst hk
    rw [stabLoop_done (by omega : (3 : Nat) ≤ 3)]
  | succ d ih =>
    intro k fuel h3 hdf
    obtain ⟨fuel', rfl⟩ : ∃ f', fuel = f' + 1 := ⟨fuel - 1, by omega⟩
    have hsc : (fun t => some (f t)) (g + 1 + k) = some (f g) := by
      show some (f (g + 1 + k)) = some (f g)
      rw [hconst (g + 1 + k) (by omega)]
    rw [@stabLoop_step (fun t => some (f t)) fuel' (g + 1 + k) k (some (f g)) (f g)
      (by omega : ¬ 3 ≤ k) hsc]
    rw [if_pos ⟨rfl, hpos⟩]
    exact ih (k + 1) fuel' (by omega) (by omega)

theorem stabLoop_growth_count {f : Nat → Nat} {g : Nat} (hpos : 0 < f g)
    (hmono : ∀ t, t < g → f t < f (t + 1)) (hconst : ∀ t, g ≤ t → f t = f g)
    (h30 : g + 4 ≤ 30) :
    ∀ fuel t last, t ≤ g → g + 4 ≤ t + fuel →
      (t = 0 → last = none) → (0 < t → last = some (f (t - 1))) →
      stabLoop (fun u => some (f u)) fuel t 0 last = (true, g + 4) := by
  intro fuel
  induction fuel with
  | zero =>
    intro t last h1 h2 _ _
    omega
  | succ fuel ih =>
    intro t last htg hfuel hl0 hlpos
    rw [@stabLoop_step (fun u => some (f u)) fuel t 0 last (f t)
      (by omega : ¬ 3 ≤ 0) rfl]
    have hcond : ¬ (last = some (f t) ∧ 0 < f t) := by
      rintro ⟨hc, _⟩
      rcases Nat.eq_zero_or_pos t with h | h
      · subst h
        rw [hl0 rfl] at hc
        exact Option.noConfusion hc
      · rw [hlpos h] at hc
        have heq : f (t - 1) = f t := Option.some.inj hc
        have hlt : f (t - 1) < f (t - 1 + 1) := hmono (t - 1) (by omega)
        rw [show t - 1 + 1 = t from by omega] at hlt
        omega
    rw [if_neg hcond]
    by_cases htg' : t = g
    · subst htg'
      exact stabLoop_count_exact hpos hconst 3 0 fuel (by omega) (by omega)
    · refine ih (t + 1) (some (f t)) (by omega) (by omega)
        (fun h => absurd h (by omega)) ?_
      intro _
      rw [show t + 1 - 1 = t from by omega]

theorem stabLoop_none_count {obs : Nat → Option Nat} {t0 : Nat} (ht0 : t0 < 30)
    (hnone : obs t0 = none) (hbefore : ∀ u, u < t0 → (obs u).isSome)
    (hnorun : ¬ ∃ i, stableRunAt obs i) :
    ∀ fuel t stable last, t ≤ t0 → t0 < t + fuel → t + fuel ≤ 30 →
      stabInv obs t stable last → stabLoop obs fuel t stable last = (false, t0) := by
  intro fuel
  induction fuel with
  | zero =>
    intro t stable last h1 h2 _ _
    omega
  | succ fuel ih =>
    intro t stable last htt0 hlt h30 hInv
    by_cases hst : 3 ≤ stable
    · have h33 : stable = 3 := by
        have := hInv.1
        omega
      subst h33
      exact absurd (stabInv_run hInv (by omega)) hnorun
    · by_cases ht : t = t0
      · subst ht
        rw [stabLoop_none hst hnone]
      · obtain ⟨sz, hsz⟩ := Option.isSome_iff_exists.mp (hbefore t (by omega))
        rw [stabLoop_step hst hsz]
        by_cases hc : last = some sz ∧ 0 < sz
        · rw [if_pos hc]
          exact ih (t + 1) (stable + 1) last (by omega) (by omega) (by omega)
            (stabInv_inc hInv (by omega) sz hsz hc.1 hc.2)
        · rw [if_neg hc]
          exact ih (t + 1) 0 (some sz) (by omega) (by omega) (by omega)
            (stabInv_reset hInv sz hsz)

/-- C3: the stability wait (3 required stable samples, 30 samples maximum)
returns success exactly when there is a run of four equal positive size
observations within the budget — the sample that sets `last_size` followed
by three consecutive samples at which the observed size is unchanged and
positive.  Failure is immediate when the path stops existing (the loop
exits at exactly the sample that observed the missing path, provided no
stable run completed earlier); a size growing strictly at every sample
never yields success; a file that grows strictly until sample `g` and then
keeps its positive size succeeds after exactly three further samples,
exiting with sample count `g + 4`; a perpetually zero size never yields
success. -/
theorem claim_C3 :
    (∀ obs : Nat → Option Nat, wait_for_stable_file obs = true ↔ ∃ i, stableRunAt obs i) ∧
    (∀ obs : Nat → Option Nat, ∀ t0 : Nat, t0 < 30 → obs t0 = none →
      (∀ u, u < t0 → (obs u).isSome) → (¬ ∃ i, stableRunAt obs i) →
      stabLoop obs 30 0 0 none = (false, t0)) ∧
    (∀ f : Nat → Nat, (∀ t, f t < f (t + 1)) →
      wait_for_stable_file (fun t => some (f t)) = false) ∧
    (∀ (f : Nat → Nat) (g : Nat), 0 < f g → (∀ t, t < g → f t < f (t + 1)) →
      (∀ t, g ≤ t → f t = f g) → g + 4 ≤ 30 →
      stabLoop (fun t => some (f t)) 30 0 0 none = (true, g + 4)) ∧
    wait_for_stable_file (fun _ => some 0) = false := by
  refine ⟨wait_iff_run, ?_, wait_monotone_false, ?_, by rfl⟩
  · intro obs t0 ht0 hnone hbef hnorun
    exact stabLoop_none_count ht0 hnone hbef hnorun 30 0 0 none (by omega) (by omega)
      (by omega) (stabInv_init obs)
  · intro f g hp hm hc h30
    exact stabLoop_growth_count hp hm hc h30 30 0 none (by omega) (by omega)
      (fun _ => rfl) (fun h => absurd h (by omega))

/-- C3 witness: a file whose observed size runs 1, 2, 3 and then stays at 3
stabilizes with success after exactly three further samples, exiting with
sample count 6. -/
theorem claim_C3_witness :
    stabLoop (fun t => some (min (t + 1) 3)) 30 0 0 none = (true, 6) :=
  claim_C3.2.2.2.1 (fun t => min (t + 1) 3) 2 (by decide)
    (fun t ht => by show min (t + 1) 3 < min (t + 1 + 1) 3; omega)
    (fun t ht => by show min (t + 1) 3 = min (2 + 1) 3; omega) (by omega)

/-- C6 counterexample: for centroid vectors `[1]`, `[1]` and MFCC vectors
`[1, 1]`, `[1, -1]`, the code's audio similarity (mean of the two per-part
cosine similarities) is `1/2`, while the cosine similarity between the two
concatenated feature vectors is `1/3`; the spec's single-cosine reading
disagrees with the code. -/
theorem claim_C6_counterexample :
    audioSimilarity afpX afpY = 1 / 2 ∧ specAudioCosine afpX afpY = 1 / 3 ∧
    audioSimilarity afpX afpY ≠ specAudioCosine afpX afpY := by
  have hc1 : cosineSim [1] [1] = 1 := by
    have hd : dotQ [1] [1] = 1 := by norm_num [dotQ]
    unfold cosineSim vecNorm
    rw [hd]
    norm_num
  have hc0 : cosineSim [1, 1] [1, -1] = 0 := by
    have hd : dotQ [1, 1] [1, -1] = 0 := by norm_num [dotQ]
    unfold cosineSim
    rw [hd]
    norm_num
  have hA : audioSimilarity afpX afpY = 1 / 2 := by
    show (cosineSim [1] [1] + cosineSim [1, 1] [1, -1]) / 2 = 1 / 2
    rw [hc1, hc0]
    norm_num
  have hS : specAudioCosine afpX afpY = 1 / 3 := by
    show cosineSim [1, 1, 1] [1, 1, -1] = 1 / 3
    have hdm : dotQ [1, 1, 1] [1, 1, -1] = 1 := by norm_num [dotQ]
    have hd3 : dotQ [1, 1, 1] [1, 1, 1] = 3 := by norm_num [dotQ]
    have hdy : dotQ [1, 1, -1] [1, 1, -1] = 3 := by norm_num [dotQ]
    unfold cosineSim vecNorm
    rw [hdm, hd3, hdy]
    rw [Real.mul_self_sqrt (by norm_num : (0 : ℝ) ≤ ((3 : ℚ) : ℝ))]
    norm_num
  refine ⟨hA, hS, ?_⟩
  rw [hA, hS]
  norm_num

/-- C6 (amended): for every audio comparison against the store, the
similarity between the fresh file and a stored candidate is the arithmetic
mean of two cosine similarities — one between the spectral-centroid
vectors and one between the MFCC vectors — not a single cosine; the
comparison is skipped when either pair of vectors has differing lengths,
and a candidate qualifies if and only if that mean is at least 0.85. -/
theorem claim_C6_amended {o : Oracle} {fs : FileSystem} {store : AdvStore}
    {path : String} {q : AudioFP} (hq : o.audioFP path = some q) :
    (∀ (p : String) (s : ℝ), (p, s) ∈ find_similar_audio o fs store path ↔
      ∃ f, (p, f) ∈ store.audio_fingerprints ∧ p ≠ path ∧ fsExists fs p = true ∧
        q.spectral_centroid.length = f.spectral_centroid.length ∧
        q.mfcc_features.length = f.mfcc_features.length ∧
        ((SIMILARITY_THRESHOLDS.audio_similarity : ℚ) : ℝ) ≤ audioSimilarity q f ∧
        s = audioSimilarity q f) ∧
    ∀ f, audioSimilarity q f =
      (cosineSim q.spectral_centroid f.spectral_centroid +
        cosineSim q.mfcc_features f.mfcc_features) / 2 :=
  ⟨fun _ _ => mem_find_similar_audio hq, fun _ => rfl⟩

/-- C6 witness: the audio-scan characterization instantiated at a concrete
oracle, filesystem, store and candidate. -/
theorem claim_C6_witness :
    oracleD.audioFP pathAudQ = some afpX ∧
    ((pathAudS, (1 : ℝ)) ∈ find_similar_audio oracleD fsD storeD pathAudQ ↔
      ∃ f, (pathAudS, f) ∈ storeD.audio_fingerprints ∧ pathAudS ≠ pathAudQ ∧
        fsExists fsD pathAudS = true ∧
        afpX.spectral_centroid.length = f.spectral_centroid.length ∧
        afpX.mfcc_features.length = f.mfcc_features.length ∧
        ((SIMILARITY_THRESHOLDS.audio_similarity : ℚ) : ℝ) ≤ audioSimilarity afpX f ∧
        (1 : ℝ) = audioSimilarity afpX f) :=
  ⟨rfl, (claim_C6_amended (rfl : oracleD.audioFP pathAudQ = some afpX)).1 pathAudS 1⟩
